import Mathlib

/-!
Verification of the spreadsheet section/sub-section/item reconstruction
parsers of this repository.

Shallow embedding notes:
* A spreadsheet cell is absent (`null`) or a primitive (string or number);
  we model it as `Option CellValue` with `CellValue = str | num`.
* JS numbers are modelled as rationals `ℚ`; the inputs the parsers see are
  plain decimals, for which rational arithmetic is exact.
* `parseFloat` is modelled on the fragment the code exercises
  (optional sign, digits, optional fractional part; no exponent or
  `Infinity` forms, which never occur in these spreadsheets).
* `String(n)` for a number `n` is modelled by exact decimal printing
  (`numToStr`): integers print as integers, fractions with a finite
  decimal expansion print exactly; a 40-digit cap makes the function
  total (exact for every denominator dividing 10^40).
-/

inductive CellValue where
  | str : String → CellValue
  | num : ℚ → CellValue
deriving DecidableEq, Repr

/-- JS `String.prototype.trim` (drop whitespace from both ends), on the
character list so that it evaluates by kernel reduction. -/
def jsTrim (s : String) : String :=
  String.mk (((s.toList.dropWhile Char.isWhitespace).reverse.dropWhile
    Char.isWhitespace).reverse)

/-- JS truthiness of a cell value (`null`, `""` and `0` are falsy). -/
def jsTruthy : Option CellValue → Bool
  | none => false
  | some (CellValue.str s) => s ≠ ""
  | some (CellValue.num q) => q ≠ 0

/-- JS truthiness of a nullable string. -/
def jsTruthyStr : Option String → Bool
  | none => false
  | some s => s ≠ ""

/-- Fractional decimal digits of `n / d` (0 ≤ n < d), up to `fuel` digits,
stopping when the remainder is zero (no trailing zeros), as JS printing does
for finite decimals. -/
def fracDigits (n d : ℕ) : ℕ → List Char
  | 0 => []
  | fuel + 1 =>
    if n = 0 then []
    else
      let n10 := n * 10
      Char.ofNat (48 + n10 / d) :: fracDigits (n10 % d) d fuel

/-- JS `String(x)` for a number: exact decimal printing (see module doc). -/
def numToStr (q : ℚ) : String :=
  if q.den = 1 then toString q.num
  else
    (if q < 0 then "-" else "")
      ++ toString (q.num.natAbs / q.den)
      ++ "."
      ++ String.mk (fracDigits (q.num.natAbs % q.den) q.den 40)

/-- JS `String(v)` on a cell value. -/
def cvToString : CellValue → String
  | CellValue.str s => s
  | CellValue.num q => numToStr q

/-- Numeric value of a digit list (most significant first). -/
def digitsVal (cs : List Char) : ℕ :=
  cs.foldl (fun a c => a * 10 + (c.toNat - 48)) 0

/-- JS `parseFloat`: skip leading whitespace, optional sign, leading decimal
prefix (digits, optional dot, digits); `none` models `NaN` (no digit found). -/
def jsParseFloat (s : String) : Option ℚ :=
  let cs := s.toList.dropWhile Char.isWhitespace
  let sign : ℚ × List Char :=
    match cs with
    | '-' :: rest => (-1, rest)
    | '+' :: rest => (1, rest)
    | _ => (1, cs)
  let intPart := sign.2.takeWhile Char.isDigit
  let rest := sign.2.dropWhile Char.isDigit
  let fracPart :=
    match rest with
    | '.' :: r => r.takeWhile Char.isDigit
    | _ => []
  if intPart.isEmpty && fracPart.isEmpty then none
  else
    some (sign.1 * ((digitsVal intPart : ℚ)
      + (digitsVal fracPart : ℚ) / (10 ^ fracPart.length)))

/-- Helper for `collapseWs`: the flag records whether the previous character
was part of a whitespace run already emitted as one space. -/
def collapseWsAux : Bool → List Char → List Char
  | _, [] => []
  | prevWs, c :: rest =>
    if c.isWhitespace then
      if prevWs then collapseWsAux true rest
      else ' ' :: collapseWsAux true rest
    else c :: collapseWsAux false rest

/-- Collapse runs of whitespace to a single space
(JS `replace(/\s+/g, ' ')`). -/
def collapseWs (cs : List Char) : List Char := collapseWsAux false cs

/-- `clean` / `cleanStr` of the sources: `null` for absent input, else
`String(v).trim().replace(/\s+/g, ' ') || null`. -/
def cleanStr : Option CellValue → Option String
  | none => none
  | some v =>
    let t := String.mk (collapseWs (jsTrim (cvToString v)).toList)
    if t = "" then none else some t

/-- The `sno` normalization of both parsers: strings are trimmed, numbers
kept; `rawSno != null ? (typeof rawSno === 'string' ? rawSno.trim() : rawSno) : null`. -/
def normSno : Option CellValue → Option CellValue
  | none => none
  | some (CellValue.str s) => some (CellValue.str (jsTrim s))
  | some (CellValue.num q) => some (CellValue.num q)

/-- `parseRate` of `src/unnamed/part_000`. -/
def p0_parseRate : Option CellValue → Option CellValue
  | none => none
  | some (CellValue.num q) => some (CellValue.num q)
  | some (CellValue.str v) =>
    let s := jsTrim v
    if s = "" then none
    else
      match jsParseFloat s with
      | some n => some (CellValue.num n)
      | none => some (CellValue.str s)

/-- `parseRate` of `src/publichealth.js` (also maps `"-"` to `null`). -/
def ph_parseRate : Option CellValue → Option CellValue
  | none => none
  | some (CellValue.num q) => some (CellValue.num q)
  | some (CellValue.str v) =>
    let s := jsTrim v
    if s = "" ∨ s = "-" then none
    else
      match jsParseFloat s with
      | some n => some (CellValue.num n)
      | none => some (CellValue.str s)

/-- Whitespace-or-dot character class (`[\s.]`). -/
def isWsOrDot (c : Char) : Bool := c.isWhitespace || c = '.'

/-- Canonical key of a raw item number, string form:
`String(sno).replace(/[\s.]+/g, '').toLowerCase()` — replacing every run of
whitespace/dots with the empty string removes exactly those characters. -/
def snoKeyStr (v : CellValue) : String :=
  String.mk ((((cvToString v).toList).filter (fun c => ¬ isWsOrDot c)).map
    Char.toLower)

/-- `snoKey` of `src/unnamed/part_000` (absent for `null`). -/
def snoKey : Option CellValue → Option String
  | none => none
  | some v => some (snoKeyStr v)

/-- Helper for `replDotWs`: the flag records whether we are inside the
whitespace run following a dot (which the match consumed). -/
def replDotWsAux : Bool → List Char → List Char
  | _, [] => []
  | afterDot, c :: rest =>
    if c = '.' then replDotWsAux true rest
    else if afterDot && c.isWhitespace then replDotWsAux true rest
    else c :: replDotWsAux false rest

/-- `replace(/\.\s*/g, '')`: each dot is removed together with the
whitespace run that follows it. -/
def replDotWs (cs : List Char) : List Char := replDotWsAux false cs

/-- The section-header key of `src/publichealth.js`:
`String(sno).replace(/\.\s*/g, '').replace(/\s+/g, '').toLowerCase()`. -/
def ph_snoKeyStr (v : CellValue) : String :=
  String.mk (((replDotWs (cvToString v).toList).filter
    (fun c => ¬ c.isWhitespace)).map Char.toLower)

/-! ## Row classifiers of `src/unnamed/part_000` -/

/-- The regex `^\d+\s*\.?\s*[a-z]?\.?$` (case-insensitive): digits, optional
whitespace, optional dot, optional whitespace, optional single letter,
optional dot.  The optional elements never overlap, so greedy left-to-right
consumption is equivalent to the backtracking regex. -/
def sectionPat (s : String) : Bool :=
  let cs := s.toList
  if (cs.takeWhile Char.isDigit).isEmpty then false
  else
    let r1 := (cs.dropWhile Char.isDigit).dropWhile Char.isWhitespace
    let r2 := match r1 with
      | '.' :: t => t
      | _ => r1
    let r3 := r2.dropWhile Char.isWhitespace
    let r4 := match r3 with
      | c :: t => if c.isAlpha then t else c :: t
      | [] => []
    let r5 := match r4 with
      | '.' :: t => t
      | _ => r4
    r5.isEmpty

/-- `isSectionHeader` of `src/unnamed/part_000`. -/
def p0_isSectionHeader (sno : Option CellValue) (unit : Option String)
    (rate : Option CellValue) : Bool :=
  match sno with
  | none => false
  | some (CellValue.num _) => unit.isNone && rate.isNone
  | some (CellValue.str s) => sectionPat (jsTrim s) && unit.isNone && rate.isNone

/-- The compound-item allow-list (`8a|8b|9a|9b|11a|11b|18a|18b|41a|41b`). -/
def compoundKeys : List String :=
  ["8a", "8b", "9a", "9b", "11a", "11b", "18a", "18b", "41a", "41b"]

/-- `isSimpleCompound` of `src/unnamed/part_000`: the canonical key is a
member of the allow-list. -/
def p0_isSimpleCompound (sno : Option CellValue) : Bool :=
  if !jsTruthy sno then false
  else
    match sno with
    | none => false
    | some v => compoundKeys.contains (snoKeyStr v)

/-- `^[a-zA-Z]$` on a string. -/
def singleLetter (s : String) : Bool :=
  match s.toList with
  | [c] => c.isAlpha
  | _ => false

/-- `isSubSection` of `src/unnamed/part_000`. -/
def p0_isSubSection (sno : Option CellValue) (unit : Option String)
    (rate : Option CellValue) : Bool :=
  sno.isSome
    && (match sno with
        | some v => singleLetter (jsTrim (cvToString v))
        | none => false)
    && unit.isNone && rate.isNone

/-- Case-insensitive prefix test (pattern given in upper case). -/
def startsWithUpper (s pat : String) : Bool :=
  pat.toList.isPrefixOf (s.toList.map Char.toUpper)

/-- Word character for the regex `\b` boundary. -/
def isWordChar (c : Char) : Bool := c.isAlphanum || c = '_'

/-- `^NOTE\b` (case-insensitive). -/
def notePat (s : String) : Bool :=
  startsWithUpper s "NOTE"
    && (match s.toList.drop 4 with
        | [] => true
        | c :: _ => !isWordChar c)

/-- `^\s{4,}`. -/
def fourLeadingWs (s : String) : Bool :=
  let t := s.toList.take 4
  t.length = 4 && t.all Char.isWhitespace

/-- `isSkip` of `src/unnamed/part_000`. -/
def p0_isSkip (desc : Option String) : Bool :=
  if !jsTruthyStr desc then false
  else
    let d := desc.getD ""
    startsWithUpper d "DIAMETER OF PIPE" || startsWithUpper d "DIA IN"
      || startsWithUpper d "DIA OF" || notePat d || fourLeadingWs d

/-- Case-insensitive substring test (pattern given in upper case). -/
def containsUpper (s pat : String) : Bool :=
  let hay := s.toList.map Char.toUpper
  (List.range (hay.length + 1)).any (fun i => pat.toList.isPrefixOf (hay.drop i))

/-- The `PVC.HDPE pipes` regex alternative of part_000 (the dot is a
wildcard matching any single character; cleaned text contains no newline). -/
def pvcHdpePat (s : String) : Bool :=
  let hay := s.toList.map Char.toUpper
  (List.range (hay.length + 1)).any (fun i =>
    let t := hay.drop i
    ("PVC".toList.isPrefixOf t) && !(t.drop 3).isEmpty
      && ("HDPE PIPES".toList.isPrefixOf (t.drop 4)))

/-- `/G\.I\. PIPES|PVC.HDPE pipes/i` of part_000's auto-sub-section rule. -/
def p0_autoSubPat (d : String) : Bool :=
  containsUpper d "G.I. PIPES" || pvcHdpePat d

/-! ## Data model of `src/unnamed/part_000` -/

structure P0Item where
  dimension : Option String
  unit : Option String
  rate : Option CellValue
  rate_type : Option String
deriving DecidableEq, Repr

structure P0Sub where
  sub_id : String
  description : Option String
  items : List P0Item
deriving DecidableEq, Repr

structure P0Section where
  item_no : CellValue
  item_key : Option String
  category : String
  title : Option String
  unit : Option String
  rate : Option CellValue
  rate_type : Option String
  sub_sections : List P0Sub
  items : List P0Item
deriving DecidableEq, Repr

/-- `CATEGORY_MAP` of `src/unnamed/part_000` (all keys are strings). -/
def categoryMap : List (String × String) := [
  ("1", "Labour Rates"),
  ("2", "Earth Work"),
  ("3", "Rock Cutting & Blasting"),
  ("3a", "Rock Cutting & Blasting"),
  ("3b", "Rock Cutting & Blasting"),
  ("3c", "Rock Cutting & Blasting"),
  ("3d", "Rock Cutting & Blasting"),
  ("3e", "Rock Cutting & Blasting"),
  ("3f", "Rock Cutting & Blasting"),
  ("4", "Loading & Unloading"),
  ("5", "Loading & Unloading"),
  ("6", "Loading & Unloading"),
  ("7", "Loading & Unloading"),
  ("8a", "Pipe Laying"),
  ("8b", "Pipe Laying"),
  ("9a", "Pipe Jointing"),
  ("9b", "Pipe Jointing"),
  ("10", "Pipe Jointing"),
  ("11a", "RCC Pipe Laying"),
  ("11b", "RCC Pipe Laying"),
  ("12", "GI/PVC/HDPE Pipe Laying"),
  ("13", "AC Pressure Pipe Laying"),
  ("14", "AC Pressure Pipe Jointing"),
  ("15", "Stoneware Pipe Laying"),
  ("16", "PVC Pipe Laying & Testing"),
  ("17", "Valve Installation Labour"),
  ("18a", "Air Valve Labour"),
  ("18b", "Kinetic Air Valve Labour"),
  ("19", "Fire Hydrant Labour"),
  ("20", "CI/DI Pipe Uprooting"),
  ("21", "RCC Pipe Uprooting"),
  ("22", "GI/PVC/HDPE Pipe Removal"),
  ("23", "CI/DI Pipe Cutting"),
  ("24", "AC Pipe Cutting"),
  ("25", "Drilling & Tapping"),
  ("26", "Road Surface Cutting"),
  ("27", "Dewatering"),
  ("28", "Shoring & Strutting"),
  ("29", "Barricading & Watching"),
  ("30", "Underwater Trench Excavation"),
  ("31", "Infiltration Gallery"),
  ("32", "Infiltration Gallery"),
  ("33", "Centering & Scaffolding"),
  ("34", "Lift & Delift of Materials"),
  ("35", "Fixtures Labour"),
  ("36", "Sanitary Fixtures Labour"),
  ("37", "Sanitary Fixtures Labour"),
  ("38", "Sanitary Fixtures Labour"),
  ("39", "Sanitary Fixtures Labour"),
  ("40", "Trench Refilling"),
  ("41a", "Isolated Scattered Works"),
  ("41b", "Repairs to Mains"),
  ("42", "Silt & Sludge Removal"),
  ("43", "Pipe Conveyance"),
  ("44", "Pipe Conveyance"),
  ("45", "Pipe Conveyance"),
  ("46", "Pipe Conveyance"),
  ("47", "Pipe Conveyance"),
  ("48", "Well Sinking"),
  ("49", "Well Sinking"),
  ("50", "Open Well Excavation"),
  ("51", "OHSR/ELSR Rates (Kilo Litres)"),
  ("52", "OHSR/ELSR Rates (Litres)"),
  ("53", "Rapid Gravity Filtration Plant")]

/-- JS `String(x)` where `x` may be `null` (`String(null) = "null"`). -/
def jsStringOfNullable : Option CellValue → String
  | none => "null"
  | some v => cvToString v

/-- `CATEGORY_MAP[key] || CATEGORY_MAP[String(sno)] || 'General'` of
part_000's `buildSection` (all map values are non-empty, so JS `||` on the
lookups is exactly `Option` fallback). -/
def p0_category (key : Option String) (sno : Option CellValue) : String :=
  match key.bind (fun k => categoryMap.lookup k) with
  | some c => c
  | none =>
    match categoryMap.lookup (jsStringOfNullable sno) with
    | some c => c
    | none => "General"

/-- `buildSection` of `src/unnamed/part_000`. -/
def p0_buildSection (sno : Option CellValue) (key : Option String)
    (desc unit : Option String) (rate : Option CellValue) : P0Section :=
  { item_no := match sno with
      | some (CellValue.num q) => CellValue.num q
      | _ => CellValue.str (jsStringOfNullable sno)
    item_key := key
    category := p0_category key sno
    title := desc
    unit := unit
    rate := rate
    rate_type := match rate with
      | none => none
      | some (CellValue.num _) => some "numeric"
      | some (CellValue.str _) => some "formula"
    sub_sections := []
    items := [] }

/-- `replace(/\s*mm$/i, '')`: strip a trailing `mm` together with the
whitespace immediately before it. -/
def stripMm (s : String) : String :=
  match s.toList.reverse with
  | c1 :: c2 :: rest =>
    if c1.toUpper = 'M' && c2.toUpper = 'M' then
      String.mk ((rest.dropWhile Char.isWhitespace).reverse)
    else s
  | _ => s

/-- `buildRateItem` of `src/unnamed/part_000`. -/
def p0_buildRateItem (desc unit : Option String) (rate : Option CellValue) :
    P0Item :=
  { dimension :=
      if jsTruthyStr desc then some (jsTrim (stripMm (desc.getD ""))) else none
    unit := if jsTruthyStr unit then some (jsTrim (unit.getD "")) else none
    rate := rate
    rate_type := some (match rate with
      | some (CellValue.num _) => "numeric"
      | _ => "formula") }

/-!
Parser state.  In the JS source, `currentSection` aliases the last element
already pushed onto `sections`, and `currentSubSection` aliases the last
element of `currentSection.sub_sections`; all later mutation goes through
those aliases.  The pure embedding keeps the open section out of the list
(`flushed` = closed sections) and appends it on close / end of input, which
yields the same final array; `subActive` records whether
`currentSubSection` is non-null (it is always the last sub-section of the
open section when set).
-/
structure P0State where
  flushed : List P0Section
  cur : Option P0Section
  subActive : Bool
deriving DecidableEq, Repr

/-- Apply `f` to the last element of a list (identity on `[]`) — the pure
form of mutating through the last-element alias. -/
def modifyLast {α : Type} (f : α → α) : List α → List α
  | [] => []
  | [a] => [f a]
  | a :: b :: rest => a :: modifyLast f (b :: rest)

/-- Push a rate item to the current sub-section's items if one is open,
else to the current section's items. -/
def p0_pushItem (it : P0Item) (st : P0State) : P0State :=
  { st with cur := st.cur.map (fun sec =>
      if st.subActive then
        { sec with sub_sections := (modifyLast
            (fun sb => { sb with items := sb.items ++ [it] }) sec.sub_sections) }
      else { sec with items := sec.items ++ [it] }) }

/-- The three-branch repair of part_000's rate-only rule, acting on the
target item list. -/
def p0_repair (desc : Option String) (rate : Option CellValue)
    (target : List P0Item) : List P0Item :=
  if jsTruthyStr desc && target.isEmpty then
    target ++ [p0_buildRateItem desc none rate]
  else
    match target.getLast? with
    | some it =>
      if it.rate.isNone then
        modifyLast (fun j => { j with rate := rate }) target
      else target ++ [p0_buildRateItem desc none rate]
    | none => target ++ [p0_buildRateItem desc none rate]

/-- Apply the rate-only repair to the active target list
(`currentSubSection.items` if open, else `currentSection.items`). -/
def p0_rateOnly (desc : Option String) (rate : Option CellValue)
    (st : P0State) : P0State :=
  { st with cur := st.cur.map (fun sec =>
      if st.subActive then
        { sec with sub_sections := (modifyLast
            (fun sb => { sb with items := p0_repair desc rate sb.items })
            sec.sub_sections) }
      else { sec with items := p0_repair desc rate sec.items }) }

/-- Cell at column `i` of a row (`undefined`/missing modelled as absent,
matching the `[...rows[i], null, null, null, null, null]` padding). -/
def cellAt (row : List (Option CellValue)) (i : ℕ) : Option CellValue :=
  row.getD i none

/-- One iteration of the `for` loop of part_000's `parseExcel`. -/
def p0_step (st : P0State) (row : List (Option CellValue)) : P0State :=
  let sno := normSno (cellAt row 1)
  let desc := cleanStr (cellAt row 2)
  let unit := cleanStr (cellAt row 3)
  let rate := p0_parseRate (cellAt row 4)
  let key := snoKey sno
  if !jsTruthy sno && !jsTruthyStr desc && !jsTruthyStr unit && rate.isNone then
    st
  else if jsTruthy sno && p0_isSimpleCompound sno then
    { flushed := st.flushed ++ st.cur.toList
      cur := some (p0_buildSection sno key desc unit rate)
      subActive := false }
  else if p0_isSectionHeader sno unit rate then
    { flushed := st.flushed ++ st.cur.toList
      cur := some (p0_buildSection sno key desc unit rate)
      subActive := false }
  else if p0_isSubSection sno unit rate && st.cur.isSome then
    { st with
      cur := st.cur.map (fun sec =>
        { sec with sub_sections := sec.sub_sections ++
            [{ sub_id := jsTrim (cvToString (sno.getD (CellValue.str "")))
               description := desc
               items := [] }] })
      subActive := true }
  else if st.cur.isSome && !jsTruthy sno && jsTruthyStr desc
      && !p0_isSkip desc && p0_autoSubPat (desc.getD "") then
    { st with
      cur := st.cur.map (fun sec =>
        { sec with sub_sections := sec.sub_sections ++
            [{ sub_id := "auto_" ++ toString (sec.sub_sections.length + 1)
               description := desc
               items := [] }] })
      subActive := true }
  else if st.cur.isSome && jsTruthyStr unit && rate.isSome then
    p0_pushItem (p0_buildRateItem desc unit rate) st
  else if st.cur.isSome && rate.isSome && !jsTruthyStr unit && !jsTruthy sno then
    p0_rateOnly desc rate st
  else st

def p0_initState : P0State := { flushed := [], cur := none, subActive := false }

/-- Fold the step over the rows. -/
def p0_run : P0State → List (List (Option CellValue)) → P0State
  | st, [] => st
  | st, row :: rest => p0_run (p0_step st row) rest

/-- `parseExcel` of `src/unnamed/part_000` on an in-memory row list
(the first two physical rows are skipped). -/
def p0_parseExcel (rows : List (List (Option CellValue))) : List P0Section :=
  let fin := p0_run p0_initState (rows.drop 2)
  fin.flushed ++ fin.cur.toList

/-! ## `src/publichealth.js` -/

/-- `isNoteRow` of publichealth.js. -/
def ph_isNoteRow (desc : Option String) : Bool :=
  if !jsTruthyStr desc then false
  else
    let d := desc.getD ""
    startsWithUpper d "NOTE" || ("//".toList.isPrefixOf (jsTrim d).toList)

/-- `/^\d+/` test. -/
def firstDigit (s : String) : Bool :=
  match s.toList with
  | c :: _ => c.isDigit
  | [] => false

/-- `isSectionHeader` of publichealth.js: integers, or any string whose
trimmed form begins with a digit, with falsy unit and null rate. -/
def ph_isSectionHeader (sno : Option CellValue) (desc : Option String)
    (unit : Option String) (rate : Option CellValue) : Bool :=
  if !jsTruthy sno && !jsTruthyStr desc then false
  else
    match sno with
    | some (CellValue.num q) => q.den = 1 && !jsTruthyStr unit && rate.isNone
    | some (CellValue.str s) =>
      s ≠ "" && firstDigit (jsTrim s) && !jsTruthyStr unit && rate.isNone
    | none => false

/-- `isSubHeader` of publichealth.js. -/
def ph_isSubHeader (sno : Option CellValue) (unit : Option String)
    (rate : Option CellValue) : Bool :=
  match sno with
  | some (CellValue.str s) =>
    s ≠ "" && singleLetter (jsTrim s) && !jsTruthyStr unit && rate.isNone
  | _ => false

/-- The inline compound test of publichealth.js line 207:
`sno && /^(11[ab]|41[ab]|18[ab])$/i.test(String(sno).replace(/[\s.]/g, ''))`. -/
def ph_compoundTest (sno : Option CellValue) : Bool :=
  jsTruthy sno
    && (match sno with
        | some v => (["11a", "11b", "41a", "41b", "18a", "18b"]).contains
            (String.mk (((cvToString v).toList.filter
              (fun c => ¬ isWsOrDot c)).map Char.toLower))
        | none => false)

/-- Key computation of publichealth.js section headers
(`replace(/\.\s*/g, '') . replace(/\s+/g, '') . toLowerCase()`). -/
def ph_keyOfString (s : String) : String :=
  String.mk (((replDotWs s.toList).filter (fun c => ¬ c.isWhitespace)).map
    Char.toLower)

/-- `/DIAMETER OF PIPE/i` or `/DIA (in|of) (mm|pipe)/i` (unanchored). -/
def ph_diameterSkipPat (d : String) : Bool :=
  containsUpper d "DIAMETER OF PIPE" || containsUpper d "DIA IN MM"
    || containsUpper d "DIA IN PIPE" || containsUpper d "DIA OF MM"
    || containsUpper d "DIA OF PIPE"

/-- `/G\.I\. PIPES/i` or `/PVC\/HDPE pipes/i` (both dots/slash literal). -/
def ph_autoSubPat (d : String) : Bool :=
  containsUpper d "G.I. PIPES" || containsUpper d "PVC/HDPE PIPES"

/-- `replace(/mm$/i, '')` (no whitespace stripped, unlike part_000). -/
def stripMmBare (s : String) : String :=
  match s.toList.reverse with
  | c1 :: c2 :: rest =>
    if c1.toUpper = 'M' && c2.toUpper = 'M' then String.mk rest.reverse else s
  | _ => s

structure PhItem where
  id : ℕ
  section_item_no : Option CellValue
  dimension : Option String
  unit : Option String
  rate : Option CellValue
  rate_type : String
deriving DecidableEq, Repr

structure PhSub where
  sub_id : String
  description : Option String
  items : List PhItem
deriving DecidableEq, Repr

structure PhSection where
  id : ℕ
  item_no : Option CellValue
  item_key : String
  category : String
  title : Option String
  unit : Option String
  rate : Option CellValue
  sub_sections : List PhSub
  items : List PhItem
  notes : List String
deriving DecidableEq, Repr

/-- `SECTION_CATEGORIES` of publichealth.js (JS object keys are strings;
numeric literal keys coerce to their decimal strings). -/
def ph_sectionCategories : List (String × String) := [
  ("1", "Labour Rates"),
  ("2", "Earth Work"),
  ("3", "Rock Cutting & Blasting"),
  ("4", "Loading & Unloading"),
  ("5", "Loading & Unloading"),
  ("6", "Loading & Unloading"),
  ("7", "Loading & Unloading"),
  ("8a", "Pipe Laying"),
  ("8b", "Pipe Laying"),
  ("9a", "Pipe Jointing"),
  ("9b", "Pipe Jointing"),
  ("10", "Pipe Jointing"),
  ("11a", "RCC Pipe Laying"),
  ("11b", "RCC Pipe Laying"),
  ("12", "GI / PVC / HDPE Pipe Laying"),
  ("13", "AC Pressure Pipe Laying"),
  ("14", "AC Pressure Pipe Jointing"),
  ("15", "Stoneware Pipe Laying"),
  ("16", "PVC Pipe Laying & Testing"),
  ("17", "Valve Labour"),
  ("18a", "Air Valve Labour"),
  ("18b", "Air Valve Labour"),
  ("19", "Fire Hydrant Labour"),
  ("20", "Pipe Uprooting"),
  ("21", "RCC Pipe Uprooting"),
  ("22", "GI/PVC/HDPE Pipe Removal"),
  ("23", "Pipe Cutting"),
  ("24", "Pipe Cutting"),
  ("25", "Drilling & Tapping"),
  ("26", "Road Cutting"),
  ("27", "Dewatering"),
  ("28", "Shoring & Strutting"),
  ("29", "Barricading"),
  ("30", "Underwater Excavation"),
  ("31", "Infiltration Gallery"),
  ("32", "Infiltration Gallery"),
  ("33", "Centering & Scaffolding"),
  ("34", "Lift & Delift"),
  ("35", "Fixtures Labour"),
  ("36", "Sanitary Fixtures Labour"),
  ("37", "Sanitary Fixtures Labour"),
  ("38", "Sanitary Fixtures Labour"),
  ("39", "Sanitary Fixtures Labour"),
  ("40", "Trench Refilling"),
  ("41a", "Miscellaneous"),
  ("41b", "Miscellaneous"),
  ("42", "Silt Removal"),
  ("43", "Pipe Conveyance"),
  ("44", "Pipe Conveyance"),
  ("45", "Pipe Conveyance"),
  ("46", "Pipe Conveyance"),
  ("47", "Pipe Conveyance"),
  ("48", "Well Sinking"),
  ("49", "Well Sinking"),
  ("50", "Well Excavation"),
  ("51", "OHSR / ELSR Rates (Kilo Litres)"),
  ("52", "OHSR / ELSR Rates (Litres)"),
  ("53", "Filtration Plant Construction")]

structure PhState where
  flushed : List PhSection
  cur : Option PhSection
  subActive : Bool
  secCounter : ℕ
  itemCounter : ℕ
deriving DecidableEq, Repr

/-- One iteration of the row loop of `parsePublicHealthXLSX`.  As for
part_000, `currentSection` aliases the last pushed section and
`currentSubSection` the last sub-section of the open section, so the pure
state keeps the open section separate and flushes it on close / end. -/
def ph_step (st : PhState) (row : List (Option CellValue)) : PhState :=
  let sno := normSno (cellAt row 1)
  let desc := cleanStr (cellAt row 2)
  let unit := cleanStr (cellAt row 3)
  let rate := ph_parseRate (cellAt row 4)
  if !jsTruthy sno && !jsTruthyStr desc && !jsTruthyStr unit && rate.isNone then
    st
  else if !jsTruthy sno && unit.isNone && rate.isNone && ph_isNoteRow desc then
    st
  else if !jsTruthy sno && unit.isNone && rate.isNone && jsTruthyStr desc
      && ([' '].isPrefixOf (desc.getD "").toList) then
    st
  else if ph_isSectionHeader sno desc unit rate then
    let key := ph_keyOfString (jsStringOfNullable sno)
    { flushed := st.flushed ++ st.cur.toList
      cur := some
        { id := st.secCounter + 1
          item_no := sno
          item_key := key
          category :=
            match ph_sectionCategories.lookup (jsStringOfNullable sno) with
            | some c => c
            | none =>
              match ph_sectionCategories.lookup key with
              | some c => c
              | none => "General"
          title := desc
          unit := unit
          rate := rate
          sub_sections := []
          items := []
          notes := [] }
      subActive := false
      secCounter := st.secCounter + 1
      itemCounter := st.itemCounter }
  else if ph_isSubHeader sno unit rate && st.cur.isSome then
    { st with
      cur := st.cur.map (fun sec =>
        { sec with sub_sections := sec.sub_sections ++
            [{ sub_id := jsTrim (cvToString (sno.getD (CellValue.str "")))
               description := desc
               items := [] }] })
      subActive := true }
  else if ph_compoundTest sno then
    let key := snoKeyStr (sno.getD (CellValue.str ""))
    { flushed := st.flushed ++ st.cur.toList
      cur := some
        { id := st.secCounter + 1
          item_no := sno
          item_key := key
          category :=
            match ph_sectionCategories.lookup key with
            | some c => c
            | none => "General"
          title := desc
          unit := unit
          rate := rate
          sub_sections := []
          items := []
          notes := [] }
      subActive := false
      secCounter := st.secCounter + 1
      itemCounter := st.itemCounter }
  else if st.cur.isSome && jsTruthyStr unit && rate.isSome then
    let item : PhItem :=
      { id := st.itemCounter + 1
        section_item_no := (st.cur.map (fun sec => sec.item_no)).getD none
        dimension :=
          if jsTruthyStr desc then some (jsTrim (stripMmBare (desc.getD "")))
          else none
        unit := some (jsTrim (unit.getD ""))
        rate := rate
        rate_type := match rate with
          | some (CellValue.num _) => "numeric"
          | _ => "formula" }
    { st with
      cur := st.cur.map (fun sec =>
        if st.subActive then
          { sec with sub_sections := (modifyLast
              (fun sb => { sb with items := sb.items ++ [item] })
              sec.sub_sections) }
        else { sec with items := sec.items ++ [item] })
      itemCounter := st.itemCounter + 1 }
  else if st.cur.isSome && rate.isSome && !jsTruthyStr unit then
    -- rate-only rows always look at the SECTION's direct items, even when a
    -- sub-section is open, and back-fill when the last item's rate is falsy
    let lastRateFalsy :=
      match (st.cur.map (fun sec => sec.items.getLast?)).getD none with
      | some it => !jsTruthy it.rate
      | none => false
    if lastRateFalsy then
      { st with cur := st.cur.map (fun sec =>
          { sec with items := (modifyLast
              (fun it => { it with rate := rate }) sec.items) }) }
    else
      let item : PhItem :=
        { id := st.itemCounter + 1
          section_item_no := (st.cur.map (fun sec => sec.item_no)).getD none
          dimension := desc
          unit := none
          rate := rate
          rate_type := match rate with
            | some (CellValue.num _) => "numeric"
            | _ => "formula" }
      { st with
        cur := st.cur.map (fun sec => { sec with items := sec.items ++ [item] })
        itemCounter := st.itemCounter + 1 }
  else if st.cur.isSome && jsTruthyStr desc && !jsTruthy sno then
    if ph_diameterSkipPat (desc.getD "") then st
    else if ph_autoSubPat (desc.getD "") then
      { st with
        cur := st.cur.map (fun sec =>
          { sec with sub_sections := sec.sub_sections ++
              [{ sub_id := "auto_" ++ toString (sec.sub_sections.length + 1)
                 description := desc
                 items := [] }] })
        subActive := true }
    else st
  else st

def ph_initState : PhState :=
  { flushed := [], cur := none, subActive := false,
    secCounter := 0, itemCounter := 0 }

def ph_run : PhState → List (List (Option CellValue)) → PhState
  | st, [] => st
  | st, row :: rest => ph_run (ph_step st row) rest

/-- The section list produced by `parsePublicHealthXLSX` (rows 0 and 1 are
skipped). -/
def ph_sections (rows : List (List (Option CellValue))) : List PhSection :=
  let fin := ph_run ph_initState (rows.drop 2)
  fin.flushed ++ fin.cur.toList

structure PhResult where
  title : String
  year : String
  source_file : String
  parsed_at : String
  sections : List PhSection
deriving DecidableEq, Repr

/-- `parsePublicHealthXLSX`: the spreadsheet reader supplies `rows`; the
file path and the wall clock (`new Date().toISOString()`) are the only
other inputs and are passed explicitly. -/
def ph_parse (rows : List (List (Option CellValue)))
    (filePath now : String) : PhResult :=
  { title := "Public Health Items - Schedule of Standard Rates"
    year := "2005-06"
    source_file := ((filePath.splitOn "/").getLast?).getD ""
    parsed_at := now
    sections := ph_sections rows }

/-! ## `src/seed.js` (`importExcel`) and the `LabourRate` schema fields -/

structure LabourRecord where
  year : String
  category : String
  subCategory : Option String
  description : String
  unit : String
  rate : CellValue
deriving DecidableEq, Repr

structure SeedState where
  cur : Option String
  sub : Option String
  out : List LabourRecord
deriving DecidableEq, Repr

/-- The category names the enum of `src/models/labourRates.js` allows. -/
def labourCategories : List String :=
  ["Skilled", "Semi-Skilled", "Unskilled", "Conveyance"]

/-- One iteration of the row loop of `importExcel` (`lowerDesc.includes(p)`
is a case-insensitive substring test; matching on upper case is the same
comparison for this ASCII data). -/
def seed_step (st : SeedState) (row : List (Option CellValue)) : SeedState :=
  let description :=
    if jsTruthy (cellAt row 2) then
      jsTrim (jsStringOfNullable (cellAt row 2))
    else ""
  let unit :=
    if jsTruthy (cellAt row 3) then
      jsTrim (jsStringOfNullable (cellAt row 3))
    else ""
  let rate := cellAt row 4
  if description = "" then st
  else if containsUpper description "SKILLED WORKMEN" then
    { cur := some "Skilled", sub := none, out := st.out }
  else if containsUpper description "SEMI-SKILLED" then
    { cur := some "Semi-Skilled", sub := none, out := st.out }
  else if containsUpper description "UNSKILLED" then
    { cur := some "Unskilled", sub := none, out := st.out }
  else if containsUpper description "OTHER CONVEYANCE" then
    { cur := some "Conveyance", sub := none, out := st.out }
  else if containsUpper description "FIRST CLASS" then
    { st with sub := some "First Class" }
  else if containsUpper description "SECOND CLASS" then
    { st with sub := some "Second Class" }
  else if containsUpper description "OPERATOR" then
    { st with sub := some "Operator" }
  else
    match st.cur with
    | none => st
    | some c =>
      match rate with
      | some (CellValue.num q) =>
        { st with out := st.out ++
            [{ year := "2005-06"
               category := c
               subCategory := st.sub
               description := description
               unit := unit
               rate := CellValue.num q }] }
      | _ => st

def seed_initState : SeedState := { cur := none, sub := none, out := [] }

def seed_run : SeedState → List (List (Option CellValue)) → SeedState
  | st, [] => st
  | st, row :: rest => seed_run (seed_step st row) rest

/-- The record list `importExcel` inserts (it iterates every physical row). -/
def seed_importExcel (rows : List (List (Option CellValue))) :
    List LabourRecord :=
  (seed_run seed_initState rows).out

/-! ## Spec-side definitions and predicates used by the theorems -/

/-- The spec's `canonicalKey` (§4.1), written from the spec's words for the
refinement comparison: absent input yields absent; otherwise strip all
whitespace and `.` characters and lower-case. -/
def canonicalKeySpec : Option CellValue → Option String
  | none => none
  | some v => some (String.mk (((cvToString v).toList.filter
      (fun c => ¬ (c.isWhitespace || c = '.'))).map Char.toLower))

/-- The claim's section-header itemNo shape, written from the spec's words:
a bare integer, or a string matching "digits, optional dot, optional single
trailing letter, optional dot" (the example `"3 a."` shows whitespace around
the dots is tolerated, which `sectionPat` captures). -/
def specSectionNoPat : CellValue → Bool
  | CellValue.num q => q.den = 1
  | CellValue.str s => sectionPat (jsTrim s)

/-- Number of sections the parser has produced so far (closed plus open). -/
def p0_sectionCount (st : P0State) : ℕ :=
  st.flushed.length + st.cur.toList.length

/-- The classification outcomes of part_000 that do produce a new Section
for a row `[-, itemNo, -, null, null]` (compound allow-list or
section-header rule; every number passes the number branch). -/
def p0_newSectionTest : CellValue → Bool
  | CellValue.num _ => true
  | CellValue.str s =>
    sectionPat (jsTrim s)
      || compoundKeys.contains (snoKeyStr (CellValue.str (jsTrim s)))

/-- The state-changing guards of `p0_step`, in source order (everything the
loop body does other than `continue`). -/
def p0_rowChanges (st : P0State) (row : List (Option CellValue)) : Bool :=
  let sno := normSno (cellAt row 1)
  let desc := cleanStr (cellAt row 2)
  let unit := cleanStr (cellAt row 3)
  let rate := p0_parseRate (cellAt row 4)
  (jsTruthy sno && p0_isSimpleCompound sno)
    || p0_isSectionHeader sno unit rate
    || (p0_isSubSection sno unit rate && st.cur.isSome)
    || (st.cur.isSome && !jsTruthy sno && jsTruthyStr desc
        && !p0_isSkip desc && p0_autoSubPat (desc.getD ""))
    || (st.cur.isSome && jsTruthyStr unit && rate.isSome)
    || (st.cur.isSome && rate.isSome && !jsTruthyStr unit && !jsTruthy sno)

/-- The state-changing guards of `ph_step`, in source order. -/
def ph_rowChanges (st : PhState) (row : List (Option CellValue)) : Bool :=
  let sno := normSno (cellAt row 1)
  let desc := cleanStr (cellAt row 2)
  let unit := cleanStr (cellAt row 3)
  let rate := ph_parseRate (cellAt row 4)
  ph_isSectionHeader sno desc unit rate
    || (ph_isSubHeader sno unit rate && st.cur.isSome)
    || ph_compoundTest sno
    || (st.cur.isSome && jsTruthyStr unit && rate.isSome)
    || (st.cur.isSome && rate.isSome && !jsTruthyStr unit)
    || (st.cur.isSome && jsTruthyStr desc && !jsTruthy sno
        && !ph_diameterSkipPat (desc.getD "")
        && ph_autoSubPat (desc.getD ""))

/-- Every rate item in the list carries a present (non-null) rate. -/
def p0_itemsRatesSome (its : List P0Item) : Prop :=
  ∀ it ∈ its, it.rate.isSome = true

/-- Every rate item of a section (direct or nested) carries a present rate. -/
def p0_secRatesSome (sec : P0Section) : Prop :=
  p0_itemsRatesSome sec.items
    ∧ ∀ sb ∈ sec.sub_sections, p0_itemsRatesSome sb.items

def p0_stateRatesSome (st : P0State) : Prop :=
  (∀ sec ∈ st.flushed, p0_secRatesSome sec)
    ∧ ∀ sec ∈ st.cur.toList, p0_secRatesSome sec

/-- The section's category field agrees with the two-stage lookup applied to
its own stored key and item number. -/
def p0_catOK (sec : P0Section) : Prop :=
  sec.category = p0_category sec.item_key (some sec.item_no)

def p0_stateCatOK (st : P0State) : Prop :=
  (∀ sec ∈ st.flushed, p0_catOK sec) ∧ ∀ sec ∈ st.cur.toList, p0_catOK sec

def p0_categoryValues : List String := categoryMap.map Prod.snd

/-- The §8 back-fill scenario: one sub-section item with `dimension "80mm"`,
`unit "rm"`, no rate assigned yet (hence no rate type, §3). -/
def c1_item : P0Item :=
  { dimension := some "80mm", unit := some "rm", rate := none,
    rate_type := none }

def c1_section : P0Section :=
  { item_no := CellValue.num 33
    item_key := some "33"
    category := "Centering & Scaffolding"
    title := some "CENTERING AND SCAFFOLDING"
    unit := none
    rate := none
    rate_type := none
    sub_sections := [{ sub_id := "a", description := some "SCAFFOLDING",
                       items := [c1_item] }]
    items := [] }

def c1_state : P0State :=
  { flushed := [], cur := some c1_section, subActive := true }

/-- The rational 245.5 (in lowest terms 491/2), written by its constructor
so that it evaluates by kernel reduction. -/
def q2455 : ℚ := ⟨491, 2, by decide, by decide⟩

/-- The rate-only row of the §8 scenario: rate `245.50`, no description. -/
def c1_row : List (Option CellValue) :=
  [none, none, none, none, some (CellValue.num q2455)]

/-- The fields of a seed record that claim C10 constrains. -/
def seedRecordOK (r : LabourRecord) : Prop :=
  r.year = "2005-06" ∧ r.category ∈ labourCategories
    ∧ r.description ≠ "" ∧ ∃ q : ℚ, r.rate = CellValue.num q

def seed_stateOK (st : SeedState) : Prop :=
  (∀ r ∈ st.out, seedRecordOK r)
    ∧ (st.cur = none ∨ ∃ c ∈ labourCategories, st.cur = some c)

/-! ## Helper lemmas -/

theorem lookup_mem_values (m : List (String × String)) (k v : String)
    (h : m.lookup k = some v) : v ∈ m.map Prod.snd := by
  induction m with
  | nil => simp [List.lookup] at h
  | cons p rest ih =>
    rw [List.lookup] at h
    by_cases hk : k == p.1
    · simp [hk] at h
      simp [← h]
    · simp [hk] at h
      simp [ih h]

theorem modifyLast_eq_dropLast {α : Type} (f : α → α) :
    ∀ (l : List α) (x : α), l.getLast? = some x →
      modifyLast f l = l.dropLast ++ [f x] := by
  intro l
  induction l with
  | nil => intro x h; simp at h
  | cons a rest ih =>
    intro x h
    cases rest with
    | nil =>
      simp [List.getLast?] at h
      simp [modifyLast, h]
    | cons b r =>
      rw [List.getLast?_cons_cons] at h
      simp [modifyLast, ih x h]

theorem modifyLast_pres {α : Type} (P : α → Prop) (f : α → α)
    (hf : ∀ x, P x → P (f x)) :
    ∀ l : List α, (∀ x ∈ l, P x) → ∀ x ∈ modifyLast f l, P x := by
  intro l
  induction l with
  | nil => intro _ x hx; simp [modifyLast] at hx
  | cons a rest ih =>
    intro hl x hx
    cases rest with
    | nil =>
      simp [modifyLast] at hx
      subst hx
      exact hf a (hl a (by simp))
    | cons b r =>
      simp only [modifyLast] at hx
      rcases List.mem_cons.mp hx with h1 | h2
      · exact h1 ▸ hl a (by simp)
      · exact ih (fun y hy => hl y (List.mem_cons_of_mem _ hy)) x h2

theorem p0_run_inv (P : P0State → Prop)
    (hstep : ∀ st row, P st → P (p0_step st row)) :
    ∀ (rows : List (List (Option CellValue))) (st : P0State),
      P st → P (p0_run st rows) := by
  intro rows
  induction rows with
  | nil => intro st h; exact h
  | cons r rest ih => intro st h; exact ih _ (hstep _ _ h)

theorem seed_run_inv (P : SeedState → Prop)
    (hstep : ∀ st row, P st → P (seed_step st row)) :
    ∀ (rows : List (List (Option CellValue))) (st : SeedState),
      P st → P (seed_run st rows) := by
  intro rows
  induction rows with
  | nil => intro st h; exact h
  | cons r rest ih => intro st h; exact ih _ (hstep _ _ h)

/-! ## Claim theorems -/

/-- C6: the parse is a deterministic function of the input rows (and the
input path): two runs on identical rows agree on every field of the result
except possibly `parsed_at`, which copies the wall clock. -/
theorem C6_parse_deterministic (rows : List (List (Option CellValue)))
    (fp t1 t2 : String) :
    (ph_parse rows fp t1).sections = (ph_parse rows fp t2).sections
      ∧ (ph_parse rows fp t1).title = (ph_parse rows fp t2).title
      ∧ (ph_parse rows fp t1).year = (ph_parse rows fp t2).year
      ∧ (ph_parse rows fp t1).source_file = (ph_parse rows fp t2).source_file :=
  ⟨rfl, rfl, rfl, rfl⟩

/-- C4 (amended): `parseRate` returns numbers unchanged, parses the leading
numeric prefix of digit-leading strings, keeps non-numeric trimmed strings
verbatim and maps null/empty to absent — as claimed — except that
publichealth.js's variant also maps the trimmed string `"-"` to absent
(part_000's variant returns `"-"` verbatim); a string rate always yields a
rate item with `rate_type = "formula"` and the string preserved. -/
theorem C4_parseRate_amended :
    (∀ q : ℚ, p0_parseRate (some (CellValue.num q)) = some (CellValue.num q)
      ∧ ph_parseRate (some (CellValue.num q)) = some (CellValue.num q))
    ∧ p0_parseRate none = none ∧ ph_parseRate none = none
    ∧ (∀ s : String, jsTrim s = "" →
        p0_parseRate (some (CellValue.str s)) = none
        ∧ ph_parseRate (some (CellValue.str s)) = none)
    ∧ (∀ s : String, ∀ n : ℚ, jsParseFloat (jsTrim s) = some n →
        jsTrim s ≠ "" →
        p0_parseRate (some (CellValue.str s)) = some (CellValue.num n))
    ∧ (∀ s : String, jsParseFloat (jsTrim s) = none → jsTrim s ≠ "" →
        p0_parseRate (some (CellValue.str s)) = some (CellValue.str (jsTrim s)))
    ∧ (∀ s : String, jsParseFloat (jsTrim s) = none → jsTrim s ≠ "" →
        jsTrim s ≠ "-" →
        ph_parseRate (some (CellValue.str s)) = some (CellValue.str (jsTrim s)))
    ∧ ph_parseRate (some (CellValue.str "-")) = none
    ∧ (∀ d u : Option String,
        (p0_buildRateItem d u (some (CellValue.str "As per Common SSR"))).rate
            = some (CellValue.str "As per Common SSR")
        ∧ (p0_buildRateItem d u
            (some (CellValue.str "As per Common SSR"))).rate_type
            = some "formula") := by
  refine ⟨fun q => ⟨rfl, rfl⟩, rfl, rfl, ?_, ?_, ?_, ?_, by decide, fun d u => ⟨rfl, rfl⟩⟩
  · intro s h
    constructor
    · simp [p0_parseRate, h]
    · simp [ph_parseRate, h]
  · intro s n hf h
    simp [p0_parseRate, h, hf]
  · intro s hf h
    simp [p0_parseRate, h, hf]
  · intro s hf h hd
    simp [ph_parseRate, h, hd, hf]

/-- C4 counterexample: `"-"` is a trimmed, non-empty string that does not
parse to a number, yet publichealth.js's `parseRate` maps it to absent
rather than returning it verbatim (part_000's returns it verbatim). -/
theorem C4_counterexample :
    jsTrim "-" = "-" ∧ ("-" : String) ≠ ""
      ∧ jsParseFloat "-" = none
      ∧ ph_parseRate (some (CellValue.str "-")) = none
      ∧ p0_parseRate (some (CellValue.str "-")) = some (CellValue.str "-") := by
  refine ⟨?_, ?_, ?_, ?_, ?_⟩ <;> decide

/-- C4 witness: the amended theorem evaluated at `"100 approx"` (leading
numeric prefix) and `"As per Common SSR"` (formula string kept verbatim). -/
theorem C4_witness :
    p0_parseRate (some (CellValue.str "100 approx"))
        = some (CellValue.num 100)
      ∧ p0_parseRate (some (CellValue.str "As per Common SSR"))
        = some (CellValue.str "As per Common SSR")
      ∧ ph_parseRate (some (CellValue.str "As per Common SSR"))
        = some (CellValue.str "As per Common SSR") := by
  have h := C4_parseRate_amended
  have h100 : jsParseFloat (jsTrim "100 approx") = some 100 := by
    have he : jsParseFloat (jsTrim "100 approx")
        = some ((1 : ℚ) * ((↑(100 : ℕ) : ℚ)
          + (↑(0 : ℕ) : ℚ) / 10 ^ (0 : ℕ))) := rfl
    rw [he]
    norm_num
  refine ⟨?_, ?_, ?_⟩
  · have := h.2.2.2.2.1 "100 approx" 100 h100 (by decide)
    simpa using this
  · have := h.2.2.2.2.2.1 "As per Common SSR" (by decide) (by decide)
    simpa using this
  · have := h.2.2.2.2.2.2.1 "As per Common SSR" (by decide) (by decide)
      (by decide)
    simpa using this

/-- C2 counterexample: publichealth.js's `isSectionHeader` classifies the
string `"3extra"` (extra characters after the digit group) as a section
header, and part_000's classifies the non-integer number `7/2` as one;
neither itemNo has the claimed shape. -/
theorem C2_counterexample :
    ph_isSectionHeader (some (CellValue.str "3extra")) none none none = true
      ∧ specSectionNoPat (CellValue.str "3extra") = false
      ∧ p0_isSectionHeader
          (some (CellValue.num ⟨7, 2, by decide, by decide⟩)) none none = true
      ∧ specSectionNoPat (CellValue.num ⟨7, 2, by decide, by decide⟩)
          = false := by
  refine ⟨?_, ?_, ?_, ?_⟩ <;> decide

/-- C1 counterexample (the §8 scenario): back-filling the rate `245.50`
into the sub-section item that had no rate leaves exactly one item whose
`rate` is now `245.50` but whose `rate_type` is still absent — the code
assigns only the `rate` field, so the item does not end up with
`rate_type = "numeric"` as the claim states. -/
theorem C1_counterexample :
    ((p0_step c1_state c1_row).cur.map
        (fun sec => sec.sub_sections.map (fun sb => sb.items.map P0Item.rate)))
      = some [[some (CellValue.num q2455)]]
    ∧ ((p0_step c1_state c1_row).cur.map
        (fun sec => sec.sub_sections.map
          (fun sb => sb.items.map P0Item.rate_type)))
      = some [[none]]
    ∧ (none : Option String) ≠ some "numeric" := by
  refine ⟨?_, ?_, ?_⟩ <;> decide

/-- C3: a row whose raw itemNo is `"11.a."` with unit and rate absent makes
both parsers open a brand-new top-level Section with `item_key = "11a"`
(part_000 via the compound allow-list) and empty `sub_sections` — the open
sub-section cursor is cleared and no SubSection is added anywhere. -/
theorem C3_compound_11a (st : P0State) (st2 : PhState)
    (desc : Option CellValue) :
    p0_step st [none, some (CellValue.str "11.a."), desc, none, none]
      = { flushed := st.flushed ++ st.cur.toList
          cur := some (p0_buildSection (some (CellValue.str "11.a."))
            (some "11a") (cleanStr desc) none none)
          subActive := false }
    ∧ (p0_buildSection (some (CellValue.str "11.a.")) (some "11a")
        (cleanStr desc) none none).item_key = some "11a"
    ∧ (p0_buildSection (some (CellValue.str "11.a.")) (some "11a")
        (cleanStr desc) none none).sub_sections = []
    ∧ p0_isSimpleCompound (some (CellValue.str "11.a.")) = true
    ∧ ph_step st2 [none, some (CellValue.str "11.a."), desc, none, none]
      = { flushed := st2.flushed ++ st2.cur.toList
          cur := some
            { id := st2.secCounter + 1
              item_no := some (CellValue.str "11.a.")
              item_key := "11a"
              category := "RCC Pipe Laying"
              title := cleanStr desc
              unit := none
              rate := none
              sub_sections := []
              items := []
              notes := [] }
          subActive := false
          secCounter := st2.secCounter + 1
          itemCounter := st2.itemCounter } :=
  ⟨rfl, rfl, rfl, rfl, rfl⟩

/-- C2 (amended): for a row `[-, itemNo, -, null, null]` with an
(already-trimmed) itemNo, part_000 produces a new Section exactly when the
blank rule does not swallow the row first (itemNo truthy, or a description
present — a falsy itemNo such as the number 0 or `""` with everything else
absent is ignored by the blank rule before classification) AND the itemNo
is a number — any number, not only bare integers — or a string matching
digits, optional dot, optional single trailing letter, optional dot (or in
the compound allow-list); publichealth.js instead accepts any non-empty
string whose trimmed form merely begins with a digit, so strings with
extra characters after the digit group also produce Sections there. -/
theorem C2_sectionHeader_amended :
    (∀ (st : P0State) (v : CellValue) (desc : Option CellValue),
      normSno (some v) = some v →
      p0_sectionCount (p0_step st [none, some v, desc, none, none])
        = p0_sectionCount st
          + (if (jsTruthy (some v) || jsTruthyStr (cleanStr desc))
                && p0_newSectionTest v then 1 else 0))
    ∧ (∀ (s : String) (d u : Option String) (r : Option CellValue), s ≠ "" →
        ph_isSectionHeader (some (CellValue.str s)) d u r
          = (firstDigit (jsTrim s) && !jsTruthyStr u && r.isNone)) := by
  constructor
  · intro st v desc hv
    have hs : normSno (cellAt [none, some v, desc, none, none] 1)
        = normSno (some v) := rfl
    have hd : cleanStr (cellAt [none, some v, desc, none, none] 2)
        = cleanStr desc := rfl
    have hu : cleanStr (cellAt [none, some v, desc, none, none] 3) = none := rfl
    have hr : p0_parseRate (cellAt [none, some v, desc, none, none] 4)
        = none := rfl
    have hjn : jsTruthyStr (none : Option String) = false := rfl
    by_cases htr : jsTruthy (some v) = true
    · -- itemNo truthy: the blank rule cannot fire
      simp only [p0_step, hs, hd, hu, hr, hv, htr, Bool.not_true,
        Bool.false_and, Bool.and_false, if_false, Bool.true_and, Bool.true_or,
        Option.isNone_none, Bool.and_true, Option.isSome_none]
      cases v with
      | num q =>
        by_cases hc : p0_isSimpleCompound (some (CellValue.num q)) = true
        · simp only [hc, if_true, p0_newSectionTest, p0_sectionCount]
          cases st.cur <;> simp [Option.toList]
        · simp only [Bool.not_eq_true] at hc
          simp only [hc, if_false]
          have hsec : p0_isSectionHeader (some (CellValue.num q)) none none
              = true := rfl
          simp only [hsec, if_true, p0_newSectionTest, p0_sectionCount]
          cases st.cur <;> simp [Option.toList]
      | str s =>
        have hts : jsTrim s = s := by
          have := hv
          simp only [normSno, Option.some.injEq, CellValue.str.injEq] at this
          exact this
        by_cases hc : p0_isSimpleCompound (some (CellValue.str s)) = true
        · have hmem : compoundKeys.contains
              (snoKeyStr (CellValue.str (jsTrim s))) = true := by
            rw [hts]
            simpa [p0_isSimpleCompound, htr] using hc
          simp only [hc, if_true, p0_newSectionTest, hmem, Bool.or_true,
            p0_sectionCount]
          cases st.cur <;> simp [Option.toList]
        · simp only [Bool.not_eq_true] at hc
          have hmem : compoundKeys.contains
              (snoKeyStr (CellValue.str (jsTrim s))) = false := by
            rw [hts]
            simpa [p0_isSimpleCompound, htr] using hc
          simp only [hc, if_false]
          by_cases hp : sectionPat (jsTrim s) = true
          · have hsec : p0_isSectionHeader (some (CellValue.str s)) none none
                = true := by
              simp [p0_isSectionHeader, hp]
            simp only [hsec, if_true, p0_newSectionTest, hp, Bool.true_or,
              p0_sectionCount]
            cases st.cur <;> simp [Option.toList]
          · simp only [Bool.not_eq_true] at hp
            have hsec : p0_isSectionHeader (some (CellValue.str s)) none none
                = false := by
              simp [p0_isSectionHeader, hp]
            have htest : p0_newSectionTest (CellValue.str s) = false := by
              simp only [p0_newSectionTest, hp, Bool.false_or]
              exact hmem
            simp only [hsec, if_false, htest, Nat.add_zero]
            by_cases h4 : (p0_isSubSection (some (CellValue.str s)) none none
                && st.cur.isSome) = true
            · simp only [h4, if_true, p0_sectionCount]
              cases st.cur <;> simp [Option.toList]
            · simp only [Bool.not_eq_true] at h4
              simp [h4, p0_sectionCount]
    · -- itemNo falsy (the number 0 or the empty string)
      simp only [Bool.not_eq_true] at htr
      by_cases hdt : jsTruthyStr (cleanStr desc) = true
      · -- a description keeps the row from being blank
        cases v with
        | num q =>
          have hq : q = 0 := by simpa [jsTruthy] using htr
          subst hq
          have hsec0 : p0_isSectionHeader (some (CellValue.num 0)) none none
              = true := rfl
          simp only [p0_step, hs, hd, hu, hr, hv, htr, hdt, hsec0,
            p0_newSectionTest, Bool.not_true, Bool.not_false, Bool.false_and,
            Bool.and_false, Bool.true_and, Bool.and_true, Bool.false_or,
            Option.isNone_none, Option.isSome_none, Bool.false_eq_true,
            if_false, if_true, p0_sectionCount]
          cases st.cur <;> simp [Option.toList]
        | str s =>
          have hs0 : s = "" := by simpa [jsTruthy] using htr
          subst hs0
          have hsecE : p0_isSectionHeader (some (CellValue.str "")) none none
              = false := by decide
          have hcompE : p0_isSimpleCompound (some (CellValue.str ""))
              = false := by decide
          have hsubE : p0_isSubSection (some (CellValue.str "")) none none
              = false := by decide
          have htestE : p0_newSectionTest (CellValue.str "") = false := by
            decide
          simp only [p0_step, hs, hd, hu, hr, hv, htr, hdt, hsecE, hcompE,
            hsubE, htestE, hjn, Bool.not_true, Bool.not_false,
            Bool.false_and, Bool.and_false, Bool.true_and, Bool.and_true,
            Bool.false_or, Option.isNone_none, Option.isSome_none,
            Bool.false_eq_true, if_false, Nat.add_zero]
          by_cases ga : (st.cur.isSome && !p0_isSkip (cleanStr desc)
              && p0_autoSubPat ((cleanStr desc).getD "")) = true
          · simp only [ga, if_true, p0_sectionCount]
            cases st.cur <;> simp [Option.toList]
          · simp only [Bool.not_eq_true] at ga
            simp [ga, p0_sectionCount]
      · -- itemNo and description both falsy: the blank rule fires
        simp only [Bool.not_eq_true] at hdt
        simp only [p0_step, hs, hd, hu, hr, hv, htr, hdt, hjn,
          Bool.not_false, Bool.true_and, Bool.and_true, Bool.false_and,
          Bool.and_false, Bool.false_or, Option.isNone_none, if_true,
          Bool.false_eq_true, if_false, Nat.add_zero]
  · intro s d u r hne
    simp [ph_isSectionHeader, jsTruthy, hne]

/-- C2 witness: the amended theorem evaluated at `"3 a."` (one new Section
for part_000) and at `"3extra"` (classified by publichealth.js). -/
theorem C2_witness :
    p0_sectionCount (p0_step p0_initState
        [none, some (CellValue.str "3 a."), none, none, none])
      = p0_sectionCount p0_initState
        + (if (jsTruthy (some (CellValue.str "3 a."))
              || jsTruthyStr (cleanStr none))
            && p0_newSectionTest (CellValue.str "3 a.") then 1 else 0)
    ∧ ph_isSectionHeader (some (CellValue.str "3extra")) none none none
      = (firstDigit (jsTrim "3extra") && !jsTruthyStr none
          && (none : Option CellValue).isNone) := by
  have h := C2_sectionHeader_amended
  exact ⟨h.1 p0_initState (CellValue.str "3 a.") none (by decide),
    h.2 "3extra" none none none (by decide)⟩

/-- The source key computation coincides with the spec's `canonicalKey`. -/
theorem snoKey_eq_canonicalKeySpec (w : Option CellValue) :
    snoKey w = canonicalKeySpec w := by
  cases w with
  | none => rfl
  | some v => rfl

/-- C5: whenever a row is classified as a Compound item or Section header,
the Section part_000 opens carries `item_key` equal to the spec's canonical
form of the row's itemNo (strip whitespace and dots, lower-case); and the
source's key function agrees with the spec's `canonicalKey` everywhere
(including absent itemNo). -/
theorem C5_itemKey (st : P0State) (row : List (Option CellValue))
    (hb : (!jsTruthy (normSno (cellAt row 1))
        && !jsTruthyStr (cleanStr (cellAt row 2))
        && !jsTruthyStr (cleanStr (cellAt row 3))
        && (p0_parseRate (cellAt row 4)).isNone) = false)
    (hc : ((jsTruthy (normSno (cellAt row 1))
          && p0_isSimpleCompound (normSno (cellAt row 1)))
        || p0_isSectionHeader (normSno (cellAt row 1))
            (cleanStr (cellAt row 3)) (p0_parseRate (cellAt row 4))) = true) :
    (p0_step st row).cur.map P0Section.item_key
      = some (canonicalKeySpec (normSno (cellAt row 1)))
    ∧ (∀ w : Option CellValue, snoKey w = canonicalKeySpec w) := by
  refine ⟨?_, snoKey_eq_canonicalKeySpec⟩
  rw [← snoKey_eq_canonicalKeySpec]
  by_cases h2 : (jsTruthy (normSno (cellAt row 1))
      && p0_isSimpleCompound (normSno (cellAt row 1))) = true
  · simp only [p0_step, hb, h2, Bool.false_eq_true, if_false, if_true,
      Option.map_some, p0_buildSection]
    rfl
  · simp only [Bool.not_eq_true] at h2
    have h3 : p0_isSectionHeader (normSno (cellAt row 1))
        (cleanStr (cellAt row 3)) (p0_parseRate (cellAt row 4)) = true := by
      rcases Bool.or_eq_true_iff.mp hc with h | h
      · rw [h] at h2; cases h2
      · exact h
    simp only [p0_step, hb, h2, h3, Bool.false_eq_true, if_false, if_true,
      Option.map_some, p0_buildSection]
    rfl

/-- C5 witness: the theorem at the end-to-end row `[null, 1, "RATES OF
LABOUR", null, null]`; the canonical key of the integer itemNo `1` is
`"1"`. -/
theorem C5_witness :
    (p0_step p0_initState
        [none, some (CellValue.num 1), some (CellValue.str "RATES OF LABOUR"),
          none, none]).cur.map P0Section.item_key
      = some (canonicalKeySpec (normSno (cellAt
          [none, some (CellValue.num 1), some (CellValue.str "RATES OF LABOUR"),
            none, none] 1)))
    ∧ canonicalKeySpec (some (CellValue.num 1)) = some "1" := by
  refine ⟨(C5_itemKey p0_initState _ (by decide) (by decide)).1, by decide⟩

/-- C7: classification is total (the steps are total functions on arbitrary
cell contents) and a row that fires none of the state-changing rules leaves
the builder state — current section, current sub-section cursor, and the
output section list — entirely unchanged, in both parsers. -/
theorem C7_ignore_unchanged :
    (∀ (st : P0State) (row : List (Option CellValue)),
      p0_rowChanges st row = false → p0_step st row = st)
    ∧ (∀ (st : PhState) (row : List (Option CellValue)),
      ph_rowChanges st row = false → ph_step st row = st) := by
  constructor
  · intro st row h
    simp only [p0_rowChanges, Bool.or_eq_false_iff] at h
    obtain ⟨⟨⟨⟨⟨h2, h3⟩, h4⟩, h5⟩, h6⟩, h7⟩ := h
    simp only [p0_step, h2, h3, h4, h5, h6, h7, Bool.false_eq_true, if_false]
    split <;> rfl
  · intro st row h
    simp only [ph_rowChanges, Bool.or_eq_false_iff] at h
    obtain ⟨⟨⟨⟨⟨h4, h5⟩, h6⟩, h7⟩, h8⟩, h9⟩ := h
    simp only [ph_step, h4, h5, h6, h7, h8, Bool.false_eq_true, if_false]
    by_cases b1 : (!jsTruthy (normSno (cellAt row 1))
        && !jsTruthyStr (cleanStr (cellAt row 2))
        && !jsTruthyStr (cleanStr (cellAt row 3))
        && (ph_parseRate (cellAt row 4)).isNone) = true
    · simp only [b1, if_true]
    · simp only [Bool.not_eq_true] at b1
      simp only [b1, Bool.false_eq_true, if_false]
      by_cases b2 : (!jsTruthy (normSno (cellAt row 1))
          && (cleanStr (cellAt row 3)).isNone
          && (ph_parseRate (cellAt row 4)).isNone
          && ph_isNoteRow (cleanStr (cellAt row 2))) = true
      · simp only [b2, if_true]
      · simp only [Bool.not_eq_true] at b2
        simp only [b2, Bool.false_eq_true, if_false]
        by_cases b3 : (!jsTruthy (normSno (cellAt row 1))
            && (cleanStr (cellAt row 3)).isNone
            && (ph_parseRate (cellAt row 4)).isNone
            && jsTruthyStr (cleanStr (cellAt row 2))
            && ([' '].isPrefixOf ((cleanStr (cellAt row 2)).getD "").toList))
            = true
        · simp only [b3, if_true]
        · simp only [Bool.not_eq_true] at b3
          simp only [b3, Bool.false_eq_true, if_false]
          by_cases b4 : (st.cur.isSome && jsTruthyStr (cleanStr (cellAt row 2))
              && !jsTruthy (normSno (cellAt row 1))) = true
          · simp only [b4, if_true]
            simp only [Bool.and_eq_true] at b4
            obtain ⟨⟨ba, bb⟩, bc⟩ := b4
            by_cases b5 : ph_diameterSkipPat
                ((cleanStr (cellAt row 2)).getD "") = true
            · simp only [b5, if_true]
            · simp only [Bool.not_eq_true] at b5
              simp only [b5, Bool.false_eq_true, if_false]
              have b6 : ph_autoSubPat ((cleanStr (cellAt row 2)).getD "")
                  = false := by
                simpa [ba, bb, bc, b5] using h9
              simp only [b6, Bool.false_eq_true, if_false]
          · simp only [Bool.not_eq_true] at b4
            simp only [b4, Bool.false_eq_true, if_false]

/-- C7 witness: a free-text row before any section header fires no rule and
leaves both initial states unchanged. -/
theorem C7_witness :
    p0_rowChanges p0_initState
        [none, none, some (CellValue.str "hello"), none, none] = false
    ∧ p0_step p0_initState
        [none, none, some (CellValue.str "hello"), none, none] = p0_initState
    ∧ ph_rowChanges ph_initState
        [none, none, some (CellValue.str "hello"), none, none] = false
    ∧ ph_step ph_initState
        [none, none, some (CellValue.str "hello"), none, none]
      = ph_initState := by
  have h := C7_ignore_unchanged
  exact ⟨by decide, h.1 _ _ (by decide), by decide, h.2 _ _ (by decide)⟩

theorem getLast?_mem_self {α : Type} :
    ∀ (l : List α) (x : α), l.getLast? = some x → x ∈ l := by
  intro l
  induction l with
  | nil => intro x h; simp at h
  | cons a rest ih =>
    intro x h
    cases rest with
    | nil =>
      simp [List.getLast?] at h
      simp [h]
    | cons b r =>
      rw [List.getLast?_cons_cons] at h
      exact List.mem_cons_of_mem _ (ih x h)

/-- Under the all-rates-present invariant, the rate-only repair always
pushes a brand-new item (the back-fill test can never succeed). -/
theorem p0_repair_pushes (d : Option String) (r : Option CellValue)
    (its : List P0Item) (h : p0_itemsRatesSome its) :
    p0_repair d r its = its ++ [p0_buildRateItem d none r] := by
  unfold p0_repair
  cases hlast : its.getLast? with
  | none =>
    have he : its = [] := by
      cases its with
      | nil => rfl
      | cons a rest => simp [List.getLast?_eq_none_iff] at hlast
    subst he
    by_cases hd : jsTruthyStr d = true <;> simp [hd]
  | some x =>
    have hne : its ≠ [] := by
      intro he; subst he; simp at hlast
    have hx : x.rate.isSome = true := h x (getLast?_mem_self its x hlast)
    have hnn : x.rate.isNone = false := by
      cases hr : x.rate with
      | none => rw [hr] at hx; cases hx
      | some v => rfl
    simp [hne, List.isEmpty_iff, hnn]

theorem p0_repair_ratesSome (d : Option String) (r : Option CellValue)
    (its : List P0Item) (hr : r.isSome = true)
    (h : p0_itemsRatesSome its) : p0_itemsRatesSome (p0_repair d r its) := by
  rw [p0_repair_pushes d r its h]
  intro it hmem
  rcases List.mem_append.mp hmem with hm | hm
  · exact h it hm
  · simp only [List.mem_singleton] at hm
    subst hm
    exact hr

/-- `p0_step` preserves the all-rates-present invariant. -/
theorem p0_step_ratesSome (st : P0State) (row : List (Option CellValue))
    (h : p0_stateRatesSome st) : p0_stateRatesSome (p0_step st row) := by
  obtain ⟨hfl, hcur⟩ := h
  have hnew : ∀ sno key desc unit rate,
      p0_stateRatesSome
        { flushed := st.flushed ++ st.cur.toList
          cur := some (p0_buildSection sno key desc unit rate)
          subActive := false } := by
    intro sno key desc unit rate
    constructor
    · intro sec hmem
      rcases List.mem_append.mp hmem with hm | hm
      · exact hfl sec hm
      · exact hcur sec hm
    · intro sec hmem
      simp only [Option.toList_some, List.mem_singleton] at hmem
      subst hmem
      exact ⟨by intro it hit; simp [p0_buildSection] at hit,
        by intro sb hsb; simp [p0_buildSection] at hsb⟩
  have hsub : ∀ (mk : P0Section → P0Sub),
      p0_stateRatesSome
        { st with
          cur := st.cur.map (fun sec =>
            { sec with sub_sections := sec.sub_sections ++ [mk sec] })
          subActive := true } → True := fun _ _ => trivial
  simp only [p0_step]
  split_ifs with g1 g2 g3 g4 g5 g6 g7
  · exact ⟨hfl, hcur⟩
  · exact hnew _ _ _ _ _
  · exact hnew _ _ _ _ _
  · -- explicit sub-section: items of the new sub are empty
    refine ⟨hfl, ?_⟩
    cases hc : st.cur with
    | none => intro sec hmem; simp [hc] at hmem
    | some sec0 =>
      intro sec hmem
      simp only [hc, Option.map_some', Option.toList_some,
        List.mem_singleton] at hmem
      subst hmem
      have h0 := hcur sec0 (by simp [hc])
      refine ⟨h0.1, ?_⟩
      intro sb hsb
      rcases List.mem_append.mp hsb with hm | hm
      · exact h0.2 sb hm
      · simp only [List.mem_singleton] at hm
        subst hm
        intro it hit
        simp at hit
  · -- auto sub-section: same shape
    refine ⟨hfl, ?_⟩
    cases hc : st.cur with
    | none => intro sec hmem; simp [hc] at hmem
    | some sec0 =>
      intro sec hmem
      simp only [hc, Option.map_some', Option.toList_some,
        List.mem_singleton] at hmem
      subst hmem
      have h0 := hcur sec0 (by simp [hc])
      refine ⟨h0.1, ?_⟩
      intro sb hsb
      rcases List.mem_append.mp hsb with hm | hm
      · exact h0.2 sb hm
      · simp only [List.mem_singleton] at hm
        subst hm
        intro it hit
        simp at hit
  · -- full rate item: the pushed item's rate is the (present) parsed rate
    have hr := (Bool.and_eq_true_iff.mp g6).2
    refine ⟨hfl, ?_⟩
    cases hc : st.cur with
    | none => intro sec hmem; simp [p0_pushItem, hc] at hmem
    | some sec0 =>
      intro sec hmem
      simp only [p0_pushItem, hc, Option.map_some', Option.toList_some,
        List.mem_singleton] at hmem
      have h0 := hcur sec0 (by simp [hc])
      by_cases hsa : st.subActive = true
      · rw [hsa] at hmem
        simp only [if_true] at hmem
        subst hmem
        refine ⟨h0.1, ?_⟩
        refine modifyLast_pres _ _ ?_ _ h0.2
        intro sb hsb it hit
        rcases List.mem_append.mp hit with hm | hm
        · exact hsb it hm
        · simp only [List.mem_singleton] at hm
          subst hm
          simpa [p0_buildRateItem] using hr
      · simp only [Bool.not_eq_true] at hsa
        rw [hsa] at hmem
        simp only [Bool.false_eq_true, if_false] at hmem
        subst hmem
        refine ⟨?_, h0.2⟩
        intro it hit
        rcases List.mem_append.mp hit with hm | hm
        · exact h0.1 it hm
        · simp only [List.mem_singleton] at hm
          subst hm
          simpa [p0_buildRateItem] using hr
  · -- rate-only row: repair preserves the invariant
    have hr := (Bool.and_eq_true_iff.mp
      (Bool.and_eq_true_iff.mp (Bool.and_eq_true_iff.mp g7).1).1).2
    refine ⟨hfl, ?_⟩
    cases hc : st.cur with
    | none => intro sec hmem; simp [p0_rateOnly, hc] at hmem
    | some sec0 =>
      intro sec hmem
      simp only [p0_rateOnly, hc, Option.map_some', Option.toList_some,
        List.mem_singleton] at hmem
      have h0 := hcur sec0 (by simp [hc])
      by_cases hsa : st.subActive = true
      · rw [hsa] at hmem
        simp only [if_true] at hmem
        subst hmem
        refine ⟨h0.1, ?_⟩
        refine modifyLast_pres _ _ ?_ _ h0.2
        intro sb hsb
        exact p0_repair_ratesSome _ _ _ hr hsb
      · simp only [Bool.not_eq_true] at hsa
        rw [hsa] at hmem
        simp only [Bool.false_eq_true, if_false] at hmem
        subst hmem
        exact ⟨p0_repair_ratesSome _ _ _ hr h0.1, h0.2⟩
  · exact ⟨hfl, hcur⟩

/-- C9: in part_000's `parseExcel` every RateItem ever present in the
output carries a present (non-null) rate — both item-creating rules require
a present rate and no step removes one — so the back-fill branch of the
rate-only rule (which requires the last item's rate to be null) is
unreachable: on any item list satisfying the invariant the repair pushes a
brand-new item and mutates nothing. -/
theorem C9_no_backfill :
    (∀ rows : List (List (Option CellValue)),
      ∀ sec ∈ p0_parseExcel rows, p0_secRatesSome sec)
    ∧ (∀ (d : Option String) (r : Option CellValue) (its : List P0Item),
        p0_itemsRatesSome its →
        p0_repair d r its = its ++ [p0_buildRateItem d none r]) := by
  constructor
  · intro rows sec hmem
    have hinit : p0_stateRatesSome p0_initState := by
      constructor
      · intro s hs; simp [p0_initState] at hs
      · intro s hs; simp [p0_initState] at hs
    have hrun : p0_stateRatesSome (p0_run p0_initState (rows.drop 2)) :=
      p0_run_inv _ (fun st row h => p0_step_ratesSome st row h) _ _ hinit
    simp only [p0_parseExcel] at hmem
    rcases List.mem_append.mp hmem with h | h
    · exact hrun.1 sec h
    · exact hrun.2 sec h
  · exact fun d r its h => p0_repair_pushes d r its h

/-- C9 witness: the invariant on a parsed two-row schedule, and the repair
pushing a new item on an empty (trivially invariant-satisfying) target. -/
theorem C9_witness :
    p0_secRatesSome
      { item_no := CellValue.num 1
        item_key := some "1"
        category := "Labour Rates"
        title := some "RATES OF LABOUR"
        unit := none
        rate := none
        rate_type := none
        sub_sections := []
        items := [{ dimension := some "80", unit := some "rm",
                    rate := some (CellValue.num 120),
                    rate_type := some "numeric" }] }
    ∧ p0_repair none (some (CellValue.num 120)) []
      = [p0_buildRateItem none none (some (CellValue.num 120))] := by
  have h := C9_no_backfill
  constructor
  · exact h.1 [[], [],
      [none, some (CellValue.num 1), some (CellValue.str "RATES OF LABOUR"),
        none, none],
      [none, none, some (CellValue.str "80"), some (CellValue.str "rm"),
        some (CellValue.num 120)]] _ (by decide)
  · exact h.2 none (some (CellValue.num 120)) []
      (by intro it hit; simp at hit)

theorem p0_buildSection_catOK (sno : Option CellValue) (key : Option String)
    (desc unit : Option String) (rate : Option CellValue) :
    p0_catOK (p0_buildSection sno key desc unit rate) := by
  cases sno with
  | none => rfl
  | some v =>
    cases v with
    | num q => rfl
    | str s => rfl

theorem p0_category_mem (key : Option String) (sno : Option CellValue) :
    p0_category key sno ∈ p0_categoryValues
      ∨ p0_category key sno = "General" := by
  unfold p0_category
  cases h1 : key.bind (fun k => categoryMap.lookup k) with
  | some c =>
    left
    cases key with
    | none => simp at h1
    | some k =>
      simp only [Option.some_bind] at h1
      exact lookup_mem_values categoryMap k c h1
  | none =>
    cases h2 : categoryMap.lookup (jsStringOfNullable sno) with
    | some c =>
      left
      exact lookup_mem_values categoryMap _ c h2
    | none =>
      right
      rfl

/-- `p0_step` preserves the category-lookup invariant on every section. -/
theorem p0_step_catOK (st : P0State) (row : List (Option CellValue))
    (h : p0_stateCatOK st) : p0_stateCatOK (p0_step st row) := by
  obtain ⟨hfl, hcur⟩ := h
  have hnew : ∀ sno key desc unit rate,
      p0_stateCatOK
        { flushed := st.flushed ++ st.cur.toList
          cur := some (p0_buildSection sno key desc unit rate)
          subActive := false } := by
    intro sno key desc unit rate
    constructor
    · intro sec hmem
      rcases List.mem_append.mp hmem with hm | hm
      · exact hfl sec hm
      · exact hcur sec hm
    · intro sec hmem
      simp only [Option.toList_some, List.mem_singleton] at hmem
      subst hmem
      exact p0_buildSection_catOK _ _ _ _ _
  simp only [p0_step]
  split_ifs with g1 g2 g3 g4 g5 g6 g7
  · exact ⟨hfl, hcur⟩
  · exact hnew _ _ _ _ _
  · exact hnew _ _ _ _ _
  · refine ⟨hfl, ?_⟩
    cases hc : st.cur with
    | none => intro sec hmem; simp [hc] at hmem
    | some sec0 =>
      intro sec hmem
      simp only [hc, Option.map_some', Option.toList_some,
        List.mem_singleton] at hmem
      subst hmem
      have h0 := hcur sec0 (by simp [hc])
      simpa [p0_catOK] using h0
  · refine ⟨hfl, ?_⟩
    cases hc : st.cur with
    | none => intro sec hmem; simp [hc] at hmem
    | some sec0 =>
      intro sec hmem
      simp only [hc, Option.map_some', Option.toList_some,
        List.mem_singleton] at hmem
      subst hmem
      have h0 := hcur sec0 (by simp [hc])
      simpa [p0_catOK] using h0
  · refine ⟨hfl, ?_⟩
    cases hc : st.cur with
    | none => intro sec hmem; simp [p0_pushItem, hc] at hmem
    | some sec0 =>
      intro sec hmem
      simp only [p0_pushItem, hc, Option.map_some', Option.toList_some,
        List.mem_singleton] at hmem
      have h0 := hcur sec0 (by simp [hc])
      by_cases hsa : st.subActive = true
      · rw [hsa] at hmem
        simp only [if_true] at hmem
        subst hmem
        simpa [p0_catOK] using h0
      · simp only [Bool.not_eq_true] at hsa
        rw [hsa] at hmem
        simp only [Bool.false_eq_true, if_false] at hmem
        subst hmem
        simpa [p0_catOK] using h0
  · refine ⟨hfl, ?_⟩
    cases hc : st.cur with
    | none => intro sec hmem; simp [p0_rateOnly, hc] at hmem
    | some sec0 =>
      intro sec hmem
      simp only [p0_rateOnly, hc, Option.map_some', Option.toList_some,
        List.mem_singleton] at hmem
      have h0 := hcur sec0 (by simp [hc])
      by_cases hsa : st.subActive = true
      · rw [hsa] at hmem
        simp only [if_true] at hmem
        subst hmem
        simpa [p0_catOK] using h0
      · simp only [Bool.not_eq_true] at hsa
        rw [hsa] at hmem
        simp only [Bool.false_eq_true, if_false] at hmem
        subst hmem
        simpa [p0_catOK] using h0
  · exact ⟨hfl, hcur⟩

/-- C8: every section part_000's parser emits resolves its category by
looking up the canonical key first, then the raw (string-cast) item number,
and finally defaulting to the literal `"General"` — so the category is
always either a value of the static table or `"General"`, never absent. -/
theorem C8_category (rows : List (List (Option CellValue))) :
    ∀ sec ∈ p0_parseExcel rows,
      sec.category = p0_category sec.item_key (some sec.item_no)
      ∧ (sec.category ∈ p0_categoryValues ∨ sec.category = "General") := by
  intro sec hmem
  have hinit : p0_stateCatOK p0_initState := by
    constructor
    · intro s hs; simp [p0_initState] at hs
    · intro s hs; simp [p0_initState] at hs
  have hrun : p0_stateCatOK (p0_run p0_initState (rows.drop 2)) :=
    p0_run_inv _ (fun st row h => p0_step_catOK st row h) _ _ hinit
  have hok : p0_catOK sec := by
    simp only [p0_parseExcel] at hmem
    rcases List.mem_append.mp hmem with h | h
    · exact hrun.1 sec h
    · exact hrun.2 sec h
  refine ⟨hok, ?_⟩
  rw [hok]
  exact p0_category_mem _ _

/-- C8 witness: the parsed section for the end-to-end row resolves to the
table entry `"Labour Rates"`. -/
theorem C8_witness :
    ({ item_no := CellValue.num 1
       item_key := some "1"
       category := "Labour Rates"
       title := some "RATES OF LABOUR"
       unit := none
       rate := none
       rate_type := none
       sub_sections := []
       items := [] } : P0Section).category
      = p0_category (some "1") (some (CellValue.num 1))
    ∧ ("Labour Rates" ∈ p0_categoryValues ∨ "Labour Rates" = "General") := by
  have h := C8_category [[], [],
    [none, some (CellValue.num 1), some (CellValue.str "RATES OF LABOUR"),
      none, none]]
    { item_no := CellValue.num 1
      item_key := some "1"
      category := "Labour Rates"
      title := some "RATES OF LABOUR"
      unit := none
      rate := none
      rate_type := none
      sub_sections := []
      items := [] } (by decide)
  exact ⟨h.1, h.2⟩

set_option maxHeartbeats 2000000 in
/-- `seed_step` preserves C10's record invariant and keeps the section
cursor inside the schema's enum. -/
theorem seed_step_ok (st : SeedState) (row : List (Option CellValue))
    (h : seed_stateOK st) : seed_stateOK (seed_step st row) := by
  obtain ⟨hout, hcur⟩ := h
  simp only [seed_step]
  split_ifs <;>
    first
    | exact ⟨hout, hcur⟩
    | exact ⟨hout, Or.inr ⟨"Skilled", by simp [labourCategories], rfl⟩⟩
    | exact ⟨hout, Or.inr ⟨"Semi-Skilled", by simp [labourCategories], rfl⟩⟩
    | exact ⟨hout, Or.inr ⟨"Unskilled", by simp [labourCategories], rfl⟩⟩
    | exact ⟨hout, Or.inr ⟨"Conveyance", by simp [labourCategories], rfl⟩⟩
    | (cases hc : st.cur with
       | none => exact ⟨hout, hcur⟩
       | some c =>
         have hcmem : c ∈ labourCategories := by
           rcases hcur with hn | ⟨c0, hc0, hceq⟩
           · rw [hn] at hc; cases hc
           · rw [hceq] at hc
             injection hc with he
             exact he ▸ hc0
         cases hr : cellAt row 4 with
         | none => exact ⟨hout, Or.inr ⟨c, hcmem, hc⟩⟩
         | some v =>
           cases v with
           | str s => exact ⟨hout, Or.inr ⟨c, hcmem, hc⟩⟩
           | num q =>
             refine ⟨?_, Or.inr ⟨c, hcmem, rfl⟩⟩
             intro r hmem
             rcases List.mem_append.mp hmem with hm | hm
             · exact hout r hm
             · simp only [List.mem_singleton] at hm
               subst hm
               refine ⟨rfl, hcmem, ?_, ⟨q, rfl⟩⟩
               assumption)

/-- C10: every record `importExcel` of src/seed.js appends has year
`"2005-06"`, a category from the `LabourRate` schema's enum, a non-empty
description, and a numeric rate — rows with missing or non-numeric rates,
or rows seen before any section marker, are skipped. -/
theorem C10_seed_records (rows : List (List (Option CellValue))) :
    ∀ r ∈ seed_importExcel rows, seedRecordOK r := by
  intro r hmem
  have hinit : seed_stateOK seed_initState := by
    constructor
    · intro s hs; simp [seed_initState] at hs
    · left; rfl
  have hrun : seed_stateOK (seed_run seed_initState rows) :=
    seed_run_inv _ (fun st row h => seed_step_ok st row h) _ _ hinit
  exact hrun.1 r hmem

/-- C10 witness: a section-marker row followed by a priced labour row
yields one record satisfying every constrained field. -/
theorem C10_witness :
    seedRecordOK
      { year := "2005-06", category := "Skilled", subCategory := none,
        description := "Mason", unit := "day",
        rate := CellValue.num 150 } := by
  exact C10_seed_records
    [[none, none, some (CellValue.str "Skilled Workmen rates"), none, none],
     [none, none, some (CellValue.str "Mason"), some (CellValue.str "day"),
       some (CellValue.num 150)]] _ (by decide)

/-- C1 (amended): in part_000 a rate-only row (section open, rate present,
unit and itemNo absent, not captured by an earlier rule) is handled by the
repair, whose target is the current SubSection's items when a sub-section
is open and the current Section's items otherwise; an empty target gets a
new RateItem; when the last item of the target has no rate yet, that item
is repaired in place with no new item created — but only its `rate` field
is assigned, so its `rateType` stays whatever it was (it is not set to
"numeric" as the claim states); otherwise a brand-new RateItem is pushed
with the description as dimension, no unit, and this rate.
publichealth.js's rate-only rule (rate present, unit falsy, no itemNo
condition) differs from the claim: it always reads and writes the current
Section's direct items even when a sub-section is open, has no special
empty-target/description branch, back-fills (again assigning only the
`rate` field) when the last direct item's rate is *falsy* rather than only
absent, and otherwise pushes a new RateItem with the description as
dimension and no unit — the last two conjuncts prove exactly this against
`ph_step` for an arbitrary state, in particular one with an open
sub-section. -/
theorem C1_rateOnly_amended :
    (∀ (st : P0State) (row : List (Option CellValue)),
      st.cur.isSome = true →
      (p0_parseRate (cellAt row 4)).isSome = true →
      jsTruthyStr (cleanStr (cellAt row 3)) = false →
      jsTruthy (normSno (cellAt row 1)) = false →
      (st.cur.isSome && !jsTruthy (normSno (cellAt row 1))
        && jsTruthyStr (cleanStr (cellAt row 2))
        && !p0_isSkip (cleanStr (cellAt row 2))
        && p0_autoSubPat ((cleanStr (cellAt row 2)).getD "")) = false →
      p0_step st row
        = p0_rateOnly (cleanStr (cellAt row 2))
            (p0_parseRate (cellAt row 4)) st)
    ∧ (∀ (st : P0State) (sec : P0Section) (d : Option String)
        (r : Option CellValue), st.cur = some sec → st.subActive = true →
        p0_rateOnly d r st = { st with cur := some { sec with
          sub_sections := (modifyLast
            (fun sb => { sb with items := p0_repair d r sb.items })
            sec.sub_sections) } })
    ∧ (∀ (st : P0State) (sec : P0Section) (d : Option String)
        (r : Option CellValue), st.cur = some sec → st.subActive = false →
        p0_rateOnly d r st
          = { st with cur := some { sec with
              items := p0_repair d r sec.items } })
    ∧ (∀ (d : Option String) (r : Option CellValue),
        p0_repair d r [] = [p0_buildRateItem d none r])
    ∧ (∀ (d : Option String) (r : Option CellValue) (its : List P0Item)
        (it : P0Item), its.getLast? = some it → it.rate = none →
        p0_repair d r its = its.dropLast ++ [{ it with rate := r }])
    ∧ (∀ (d : Option String) (r : Option CellValue) (its : List P0Item)
        (it : P0Item), its.getLast? = some it → it.rate ≠ none →
        p0_repair d r its = its ++ [p0_buildRateItem d none r])
    ∧ (∀ (st : PhState) (row : List (Option CellValue)) (sec : PhSection)
        (it : PhItem), st.cur = some sec →
        (ph_parseRate (cellAt row 4)).isSome = true →
        jsTruthyStr (cleanStr (cellAt row 3)) = false →
        ph_compoundTest (normSno (cellAt row 1)) = false →
        sec.items.getLast? = some it → (!jsTruthy it.rate) = true →
        ph_step st row = { st with cur := some { sec with
          items := (modifyLast
            (fun j => { j with rate := ph_parseRate (cellAt row 4) })
            sec.items) } })
    ∧ (∀ (st : PhState) (row : List (Option CellValue)) (sec : PhSection),
        st.cur = some sec →
        (ph_parseRate (cellAt row 4)).isSome = true →
        jsTruthyStr (cleanStr (cellAt row 3)) = false →
        ph_compoundTest (normSno (cellAt row 1)) = false →
        (match sec.items.getLast? with
         | some it => !jsTruthy it.rate
         | none => false) = false →
        ph_step st row = { st with
          cur := some { sec with items := sec.items ++
            [{ id := st.itemCounter + 1
               section_item_no := sec.item_no
               dimension := cleanStr (cellAt row 2)
               unit := none
               rate := ph_parseRate (cellAt row 4)
               rate_type := match ph_parseRate (cellAt row 4) with
                 | some (CellValue.num _) => "numeric"
                 | _ => "formula" }] }
          itemCounter := st.itemCounter + 1 }) := by
  refine ⟨?_, ?_, ?_, ?_, ?_, ?_, ?_, ?_⟩
  · intro st row hcur hr hunit hsno hauto
    obtain ⟨rv, hrv⟩ : ∃ v, p0_parseRate (cellAt row 4) = some v :=
      Option.isSome_iff_exists.mp hr
    have hblank : (!jsTruthy (normSno (cellAt row 1))
        && !jsTruthyStr (cleanStr (cellAt row 2))
        && !jsTruthyStr (cleanStr (cellAt row 3))
        && (p0_parseRate (cellAt row 4)).isNone) = false := by
      simp [hrv]
    have hcomp : (jsTruthy (normSno (cellAt row 1))
        && p0_isSimpleCompound (normSno (cellAt row 1))) = false := by
      simp [hsno]
    have hsec : p0_isSectionHeader (normSno (cellAt row 1))
        (cleanStr (cellAt row 3)) (p0_parseRate (cellAt row 4)) = false := by
      cases hx : normSno (cellAt row 1) with
      | none => rfl
      | some v =>
        cases v with
        | num q => simp [p0_isSectionHeader, hrv]
        | str s => simp [p0_isSectionHeader, hrv]
    have hsub : (p0_isSubSection (normSno (cellAt row 1))
        (cleanStr (cellAt row 3)) (p0_parseRate (cellAt row 4))
        && st.cur.isSome) = false := by
      simp [p0_isSubSection, hrv]
    have hitem : (st.cur.isSome && jsTruthyStr (cleanStr (cellAt row 3))
        && (p0_parseRate (cellAt row 4)).isSome) = false := by
      simp [hunit]
    have hro : (st.cur.isSome && (p0_parseRate (cellAt row 4)).isSome
        && !jsTruthyStr (cleanStr (cellAt row 3))
        && !jsTruthy (normSno (cellAt row 1))) = true := by
      simp [hcur, hr, hunit, hsno]
    simp only [p0_step, hblank, hcomp, hsec, hsub, hauto, hitem, hro,
      Bool.false_eq_true, if_false, if_true]
  · intro st sec d r hc hsa
    simp [p0_rateOnly, hc, hsa]
  · intro st sec d r hc hsa
    simp [p0_rateOnly, hc, hsa]
  · intro d r
    by_cases hd : jsTruthyStr d = true <;> simp [p0_repair, hd]
  · intro d r its it hlast hrate
    have hne : its ≠ [] := by
      intro he; subst he; simp at hlast
    have hie : its.isEmpty = false := by
      simp [List.isEmpty_iff, hne]
    simp only [p0_repair, hie, Bool.and_false, Bool.false_eq_true, if_false,
      hlast, hrate, Option.isNone_none, if_true]
    exact modifyLast_eq_dropLast _ its it hlast
  · intro d r its it hlast hrate
    obtain ⟨v, hv⟩ := Option.ne_none_iff_exists'.mp hrate
    have hne : its ≠ [] := by
      intro he; subst he; simp at hlast
    have hie : its.isEmpty = false := by
      simp [List.isEmpty_iff, hne]
    simp only [p0_repair, hie, Bool.and_false, Bool.false_eq_true, if_false,
      hlast, hv, Option.isNone_some, if_false]
  · intro st row sec it hc hr hunit hcomp hlast hfal
    obtain ⟨rv, hrv⟩ : ∃ v, ph_parseRate (cellAt row 4) = some v :=
      Option.isSome_iff_exists.mp hr
    have hsec : ph_isSectionHeader (normSno (cellAt row 1))
        (cleanStr (cellAt row 2)) (cleanStr (cellAt row 3))
        (some rv) = false := by
      unfold ph_isSectionHeader
      split
      · rfl
      · cases hx : normSno (cellAt row 1) with
        | none => rfl
        | some v =>
          cases v with
          | num q => simp
          | str s => simp
    have hsub : ph_isSubHeader (normSno (cellAt row 1))
        (cleanStr (cellAt row 3)) (some rv) = false := by
      cases hx : normSno (cellAt row 1) with
      | none => simp [ph_isSubHeader]
      | some v =>
        cases v with
        | num q => simp [ph_isSubHeader]
        | str s => simp [ph_isSubHeader]
    simp only [ph_step, hc, hrv, hsec, hsub, hcomp, hunit,
      Option.isSome_some, Option.isNone_some, Option.map_some',
      Option.getD_some, Bool.true_and, Bool.and_true, Bool.false_and,
      Bool.and_false, Bool.not_false, Bool.false_eq_true, if_false, if_true,
      hlast, hfal]
    try rfl
  · intro st row sec hc hr hunit hcomp hm
    obtain ⟨rv, hrv⟩ : ∃ v, ph_parseRate (cellAt row 4) = some v :=
      Option.isSome_iff_exists.mp hr
    have hsec : ph_isSectionHeader (normSno (cellAt row 1))
        (cleanStr (cellAt row 2)) (cleanStr (cellAt row 3))
        (some rv) = false := by
      unfold ph_isSectionHeader
      split
      · rfl
      · cases hx : normSno (cellAt row 1) with
        | none => rfl
        | some v =>
          cases v with
          | num q => simp
          | str s => simp
    have hsub : ph_isSubHeader (normSno (cellAt row 1))
        (cleanStr (cellAt row 3)) (some rv) = false := by
      cases hx : normSno (cellAt row 1) with
      | none => simp [ph_isSubHeader]
      | some v =>
        cases v with
        | num q => simp [ph_isSubHeader]
        | str s => simp [ph_isSubHeader]
    cases hL : sec.items.getLast? with
    | none =>
      simp only [ph_step, hc, hrv, hsec, hsub, hcomp, hunit,
        Option.isSome_some, Option.isNone_some, Option.map_some',
        Option.getD_some, Bool.true_and, Bool.and_true, Bool.false_and,
        Bool.and_false, Bool.not_false, Bool.false_eq_true, if_false,
        if_true, hL]
      try rfl
    | some it =>
      have hfal2 : (!jsTruthy it.rate) = false := by
        rw [hL] at hm
        exact hm
      simp only [ph_step, hc, hrv, hsec, hsub, hcomp, hunit,
        Option.isSome_some, Option.isNone_some, Option.map_some',
        Option.getD_some, Bool.true_and, Bool.and_true, Bool.false_and,
        Bool.and_false, Bool.not_false, Bool.false_eq_true, if_false,
        if_true, hL, hfal2]
      try rfl

/-- C1 witness: in part_000 a rate-only row with description `"Filling"`
and rate `10` processed with a section open and no sub-section dispatches
to the repair, targets the section's direct items, and pushes one new
RateItem; in publichealth.js a rate-only row processed with a sub-section
OPEN still pushes onto the section's direct items. -/
theorem C1_witness :
    p0_step
      { flushed := []
        cur := some
          { item_no := CellValue.num 40
            item_key := some "40"
            category := "Trench Refilling"
            title := some "REFILLING"
            unit := none
            rate := none
            rate_type := none
            sub_sections := []
            items := [] }
        subActive := false }
      [none, none, some (CellValue.str "Filling"), none,
        some (CellValue.num 10)]
      = p0_rateOnly
          (cleanStr (cellAt [none, none, some (CellValue.str "Filling"), none,
            some (CellValue.num 10)] 2))
          (p0_parseRate (cellAt [none, none, some (CellValue.str "Filling"),
            none, some (CellValue.num 10)] 4))
          { flushed := []
            cur := some
              { item_no := CellValue.num 40
                item_key := some "40"
                category := "Trench Refilling"
                title := some "REFILLING"
                unit := none
                rate := none
                rate_type := none
                sub_sections := []
                items := [] }
            subActive := false }
    ∧ p0_rateOnly (some "Filling") (some (CellValue.num 10))
        { flushed := []
          cur := some
            { item_no := CellValue.num 40
              item_key := some "40"
              category := "Trench Refilling"
              title := some "REFILLING"
              unit := none
              rate := none
              rate_type := none
              sub_sections := []
              items := [] }
          subActive := false }
      = { flushed := []
          cur := some
            { item_no := CellValue.num 40
              item_key := some "40"
              category := "Trench Refilling"
              title := some "REFILLING"
              unit := none
              rate := none
              rate_type := none
              sub_sections := []
              items := p0_repair (some "Filling") (some (CellValue.num 10)) [] }
          subActive := false }
    ∧ p0_repair (some "Filling") (some (CellValue.num 10)) []
      = [p0_buildRateItem (some "Filling") none (some (CellValue.num 10))]
    ∧ ph_step
        { flushed := []
          cur := some
            { id := 1, item_no := some (CellValue.num 33), item_key := "33",
              category := "Centering & Scaffolding",
              title := some "SCAFFOLDING", unit := none, rate := none,
              sub_sections := [{ sub_id := "a", description := some "INNER",
                                 items := [] }],
              items := [], notes := [] }
          subActive := true
          secCounter := 1
          itemCounter := 0 }
        [none, none, some (CellValue.str "extra"), none,
          some (CellValue.num 99)]
      = { flushed := []
          cur := some
            { id := 1, item_no := some (CellValue.num 33), item_key := "33",
              category := "Centering & Scaffolding",
              title := some "SCAFFOLDING", unit := none, rate := none,
              sub_sections := [{ sub_id := "a", description := some "INNER",
                                 items := [] }],
              items := [] ++
                [{ id := 0 + 1
                   section_item_no := some (CellValue.num 33)
                   dimension := cleanStr (cellAt [none, none,
                     some (CellValue.str "extra"), none,
                     some (CellValue.num 99)] 2)
                   unit := none
                   rate := ph_parseRate (cellAt [none, none,
                     some (CellValue.str "extra"), none,
                     some (CellValue.num 99)] 4)
                   rate_type := match ph_parseRate (cellAt [none, none,
                     some (CellValue.str "extra"), none,
                     some (CellValue.num 99)] 4) with
                     | some (CellValue.num _) => "numeric"
                     | _ => "formula" }]
              notes := [] }
          subActive := true
          secCounter := 1
          itemCounter := 0 + 1 } := by
  have h := C1_rateOnly_amended
  refine ⟨?_, ?_, ?_, ?_⟩
  · exact h.1 _ _ (by decide) (by decide) (by decide) (by decide) (by decide)
  · exact h.2.2.1
      { flushed := []
        cur := some
          { item_no := CellValue.num 40, item_key := some "40",
            category := "Trench Refilling", title := some "REFILLING",
            unit := none, rate := none, rate_type := none,
            sub_sections := [], items := [] }
        subActive := false }
      { item_no := CellValue.num 40, item_key := some "40",
        category := "Trench Refilling", title := some "REFILLING",
        unit := none, rate := none, rate_type := none,
        sub_sections := [], items := [] }
      (some "Filling") (some (CellValue.num 10)) rfl rfl
  · exact h.2.2.2.1 (some "Filling") (some (CellValue.num 10))
  · exact h.2.2.2.2.2.2.2
      { flushed := []
        cur := some
          { id := 1, item_no := some (CellValue.num 33), item_key := "33",
            category := "Centering & Scaffolding",
            title := some "SCAFFOLDING", unit := none, rate := none,
            sub_sections := [{ sub_id := "a", description := some "INNER",
                               items := [] }],
            items := [], notes := [] }
        subActive := true
        secCounter := 1
        itemCounter := 0 }
      [none, none, some (CellValue.str "extra"), none,
        some (CellValue.num 99)]
      { id := 1, item_no := some (CellValue.num 33), item_key := "33",
        category := "Centering & Scaffolding",
        title := some "SCAFFOLDING", unit := none, rate := none,
        sub_sections := [{ sub_id := "a", description := some "INNER",
                           items := [] }],
        items := [], notes := [] }
      rfl (by decide) (by decide) (by decide) (by decide)
